import Mathlib

/-!
# XP-Pen vendor handler: message drain, device attach and detach, configuration

A shallow embedding of `src/xp_pen_handler.cpp`.  The object's members are the
fields of `State`; every member function is a function on `State`.  Calls that
leave the object (libusb, the message queue, the per-product handlers, the
standard output) are appended to `State.trace` in program order, so that the
order and the number of effects can be stated.

Pointers are modelled by what they identify: a `libusb_device*` and a
`libusb_device_handle*` by a number, a `device_interface_pair*` by the record
it points to (the record carries its own address, `addr`), a `libusb_transfer*`
by a record carrying its allocation number.
-/

namespace XpPen

/-! ## Data model -/

/-- Identity of a `libusb_device*`. -/
abbrev libusb_device := Nat

/-- Identity of a `libusb_device_handle*`. -/
abbrev libusb_device_handle := Nat

/-- Destination category of a bus message. -/
inductive message_destination
  | driver
  | gui
  deriving DecidableEq, Repr

/-- Message of the bus: destination, vendor identifier, device (product)
identifier, and a payload. -/
structure unix_socket_message where
  destination : message_destination
  vendor : Int
  device : Int
  data : List Nat
  deriving DecidableEq, Repr

/-- Values of `nlohmann::json`. -/
inductive Json
  | null
  | boolean (b : Bool)
  | number (n : Int)
  | string (s : String)
  | array (items : List Json)
  | object (members : List (String × Json))

/-- The fields of a descriptor that the handler reads. -/
structure libusb_device_descriptor where
  idVendor : Int
  idProduct : Int
  deriving DecidableEq, Repr

/-- Modelled from the spec: device_interface_pair (its header is absent), the
DeviceInterfaceBinding of the data model: device identity, opened handle,
claimed interface number, maximum packet size and product identifier.  The
field `addr` is the address of the object: two pointers are equal exactly when
they point to the same record. -/
structure device_interface_pair where
  addr : Nat
  device : libusb_device
  deviceHandle : libusb_device_handle
  interfaceNumber : Nat
  maxPacketSize : Int
  productId : Int
  deriving DecidableEq, Repr

/-- Modelled from the spec: transfer_setup_data (its header is absent), the
TransferSetupRecord: the fields read at line 114 of the source. -/
structure transfer_setup_data where
  handle : libusb_device_handle
  interface_number : Nat
  maxPacketSize : Int
  productId : Int
  deriving DecidableEq, Repr

/-- A submitted asynchronous transfer (`libusb_transfer*`): `id` is the
allocation number that identifies the transfer, the other fields are the
parameters it was submitted with. -/
structure libusb_transfer where
  id : Nat
  handle : libusb_device_handle
  interface_number : Nat
  maxPacketSize : Int
  deriving DecidableEq, Repr

/-- Lines written to the standard output. -/
inductive LogLine
  | handling (name : String)
  | couldNotClaim (attempt : Nat)
  | givingUp
  | unknownProduct (idProduct : Int)
  | handlingDeviceDetach
  | handled (handledMessages totalMessages : Nat)
  | sendingInitKey (interface_number : Int)
  | failedToSendKey (interface_number ret : Int)
  | didNotSendAllOfKey (interface_number sentBytes : Int)
  deriving DecidableEq

/-- Effects that leave the object, in program order.  `handleMessage` records
the call of a product handler together with the outstanding-transfer set at the
moment of the call and the responses the handler returned. -/
inductive Event
  | cancelTransfer (t : libusb_transfer)
  | handleMessage (product : Int) (message : unix_socket_message)
      (outstanding : List libusb_transfer) (responses : List unix_socket_message)
  | addMessage (message : unix_socket_message)
  | submitTransfer (t : libusb_transfer)
  | claimDevice (device : libusb_device) (idProduct : Int)
  | sleepSeconds (n : Nat)
  | detachDevice (product : Int) (handle : libusb_device_handle)
  | releaseInterface (handle : libusb_device_handle) (interfaceNumber : Nat)
  | close (handle : libusb_device_handle)
  | interruptTransfer (handle : libusb_device_handle) (endpoint : Int)
      (data : List Nat) (timeout : Nat)
  | log (line : LogLine)
  deriving DecidableEq

/-- Modelled from the spec: tablet_handler (its header is absent), the
ProductHandler capability of the interface section: product name, configuration
set and get, message handling, detach hook.  A handler object is this table of
operations together with its own fields of type `σ`, which are kept in
`State.handlerState` under the registry key of the handler. -/
structure tablet_handler (σ : Type) where
  getProductName : σ → Int → String
  setConfig : σ → Json → σ
  getConfig : σ → Json
  handleMessage : σ → unix_socket_message → σ × List unix_socket_message
  detachDevice : σ → libusb_device_handle → σ

/-- What a successful claim yields besides the fresh binding object. -/
structure claim_result where
  deviceHandle : libusb_device_handle
  interfaceNumber : Nat
  maxPacketSize : Int
  deriving DecidableEq, Repr

/-- The transport layer seen from the handler: `claim n device descriptor` is
the outcome of the `n`-th call of claimDevice made so far (`none`: the claim
failed), `interrupt_transfer` gives the return code and the number of bytes
sent of a synchronous interrupt transfer. -/
structure Transport where
  claim : Nat → libusb_device → libusb_device_descriptor → Option claim_result
  interrupt_transfer : libusb_device_handle → Int → List Nat → Nat → Int × Int

/-- Members of `xp_pen_handler` (inherited from the vendor handler base class),
followed by the bookkeeping of the environment: the two allocation counters,
the number of claim calls made, and the effect trace.

`productHandlers` is the `std::map` from product identifier to handler, with one
handler object per key as in the data model of the spec; `deviceInterfaceMap`
is the `std::map` from device identity to binding.  Both are association lists
with distinct keys. -/
structure State (σ : Type) where
  productHandlers : AList (fun _ : Int => tablet_handler σ)
  handlerState : Int → σ
  handledProducts : List Int
  jsonConfig : Json
  messageQueue : List unix_socket_message
  libusbTransfers : List libusb_transfer
  transfersSetUp : List transfer_setup_data
  deviceInterfaces : List device_interface_pair
  deviceInterfaceMap : AList (fun _ : libusb_device => device_interface_pair)
  nextTransfer : Nat
  nextPair : Nat
  claimCalls : Nat
  trace : List Event

variable {σ : Type}

/-- Append one effect to the trace. -/
def State.emit (s : State σ) (e : Event) : State σ :=
  { s with trace := s.trace ++ [e] }

/-! ## Vendor identity -/

/-- Source lines 52-54. -/
def getVendorId : Int := 0x28bd

/-- Source lines 56-58. -/
def getProductIds (s : State σ) : List Int := s.handledProducts

/-- Source lines 60-62. -/
def vendorName : String := "XP-Pen"

/-! ## Message bus -/

/-- Modelled from the spec: MessageBus `getMessagesFor(destination, vendorId)`
(the queue class is absent), a destructive read: the messages addressed to the
destination and vendor are returned in queue order and leave the queue. -/
def getMessagesFor (queue : List unix_socket_message) (destination : message_destination)
    (vendor : Int) : List unix_socket_message × List unix_socket_message :=
  (queue.filter (fun m => decide (m.destination = destination ∧ m.vendor = vendor)),
   queue.filter (fun m => !decide (m.destination = destination ∧ m.vendor = vendor)))

/-- Modelled from the spec: MessageBus `addMessage(message)` (the queue class is
absent): publishes a message to the bus. -/
def addMessage (s : State σ) (response : unix_socket_message) : State σ :=
  { s with messageQueue := s.messageQueue ++ [response],
           trace := s.trace ++ [Event.addMessage response] }

/-! ## Transfers -/

/-- Modelled from the spec: setupTransfers (defined in the absent vendor handler
base class): "re-submit a fresh asynchronous transfer using the same device
handle, interface number, and maximum packet size, and add the new transfer
handle to the outstanding set". -/
def setupTransfers (s : State σ) (handle : libusb_device_handle) (interface_number : Nat)
    (maxPacketSize : Int) (_productId : Int) : State σ :=
  let transfer : libusb_transfer :=
    { id := s.nextTransfer, handle := handle, interface_number := interface_number,
      maxPacketSize := maxPacketSize }
  { s with nextTransfer := s.nextTransfer + 1,
           libusbTransfers := s.libusbTransfers ++ [transfer],
           trace := s.trace ++ [Event.submitTransfer transfer] }

/-! ## handleMessages (source lines 85-119) -/

/-- Lines 92-94: request cancellation of every outstanding transfer. -/
def cancelTransfers (s : State σ) : State σ :=
  { s with trace := s.trace ++ s.libusbTransfers.map Event.cancelTransfer }

/-- Lines 98-110: the loop over the pulled messages, carrying the object and the
counter `handledMessages`.  (`delete message` releases memory and has no
counterpart here: messages are values.) -/
def dispatchLoop : List unix_socket_message → State σ × Nat → State σ × Nat
  | [], acc => acc
  | message :: rest, (s, handledMessages) =>
    match s.productHandlers.lookup message.device with
    | some handler =>
      let result := handler.handleMessage (s.handlerState message.device) message
      let s1 : State σ :=
        { s with handlerState := Function.update s.handlerState message.device result.1,
                 trace := s.trace ++
                   [Event.handleMessage message.device message s.libusbTransfers result.2] }
      let s2 := result.2.foldl addMessage s1
      dispatchLoop rest (s2, handledMessages + 1)
    | none => dispatchLoop rest (s, handledMessages)

/-- Lines 113-115: re-arm one transfer per setup record. -/
def rearmLoop : List transfer_setup_data → State σ → State σ
  | [], s => s
  | setupData :: rest, s =>
    rearmLoop rest (setupTransfers s setupData.handle setupData.interface_number
      setupData.maxPacketSize setupData.productId)

/-- Source lines 85-119. -/
def handleMessages (s : State σ) : State σ :=
  let pulled := getMessagesFor s.messageQueue message_destination.driver getVendorId
  let messages := pulled.1
  let s0 : State σ := { s with messageQueue := pulled.2 }
  let totalMessages := messages.length
  if totalMessages > 0 then
    let s1 := cancelTransfers s0
    let s2 : State σ := { s1 with libusbTransfers := [] }
    let dispatched := dispatchLoop messages (s2, 0)
    let s3 := rearmLoop dispatched.1.transfersSetUp dispatched.1
    s3.emit (Event.log (LogLine.handled dispatched.2 totalMessages))
  else
    s0

/-! ## Configuration (source lines 64-83) -/

/-- Value stored under a key of an object's member list. -/
def Json.lookupKey (key : String) : List (String × Json) → Option Json
  | [] => none
  | (k, v) :: rest => if k = key then some v else Json.lookupKey key rest

/-- Value of `j == nullptr`. -/
def Json.isNull : Json → Bool
  | Json.null => true
  | _ => false

/-- Method `contains(key)`: whether `j` is an object that has the key. -/
def Json.contains (j : Json) (key : String) : Bool :=
  match j with
  | Json.object members => (Json.lookupKey key members).isSome
  | _ => false

/-- The member of `j` under `key`, when `j` is an object that has it. -/
def Json.get (j : Json) (key : String) : Option Json :=
  match j with
  | Json.object members => Json.lookupKey key members
  | _ => none

/-- Value read through `j[key]`: the member under the key, null when `j` is null
or an object without the key; on any other kind of value the library throws
(`none`).  (The null member that the library inserts on a missing key is not
recorded: the source reads `j[key]` only where the key is present.) -/
def Json.subscript (j : Json) (key : String) : Option Json :=
  match j with
  | Json.null => some Json.null
  | Json.object members => some ((Json.lookupKey key members).getD Json.null)
  | _ => none

/-- Statement `j[key] = value`: null becomes an object with the one member, an
object gets the member set; on any other kind of value the library throws
(`none`). -/
def Json.assign (j : Json) (key : String) (value : Json) : Option Json :=
  match j with
  | Json.null => some (Json.object [(key, value)])
  | Json.object members =>
    some (Json.object ((key, value) :: members.filter (fun kv => !decide (kv.1 = key))))
  | _ => none

/-- The empty object, `nlohmann::json({})`. -/
def Json.emptyObject : Json := Json.object []

/-- Lines 66-71, the body of the loop of setConfig for one registry entry,
carrying the local `config` and the fields of the handlers. -/
def setConfigStep (product : Int) (handler : tablet_handler σ)
    (acc : Json × (Int → σ)) : Option (Json × (Int → σ)) :=
  let productString := toString product
  let missing : Option Bool :=
    if !acc.1.contains productString then some true
    else (acc.1.subscript productString).map Json.isNull
  missing.bind fun isMissing =>
    (if isMissing then acc.1.assign productString Json.emptyObject else some acc.1).bind
      fun config =>
        (config.subscript productString).map fun sub =>
          (config, Function.update acc.2 product (handler.setConfig (acc.2 product) sub))

/-- Lines 65-72: the loop of setConfig over the registry entries. -/
def setConfigLoop : List (Sigma fun _ : Int => tablet_handler σ) → Json × (Int → σ) →
    Option (Json × (Int → σ))
  | [], acc => some acc
  | entry :: rest, acc => (setConfigStep entry.1 entry.2 acc).bind (setConfigLoop rest)

/-- Source lines 64-75; `none` when the json library throws. -/
def setConfig (s : State σ) (config : Json) : Option (State σ) :=
  (setConfigLoop s.productHandlers.entries (config, s.handlerState)).map fun r =>
    { s with handlerState := r.2, jsonConfig := r.1 }

/-- Lines 78-80: the loop of getConfig over the registry entries. -/
def getConfigLoop (handlerState : Int → σ) :
    List (Sigma fun _ : Int => tablet_handler σ) → Json → Option Json
  | [], jsonConfig => some jsonConfig
  | entry :: rest, jsonConfig =>
    (jsonConfig.assign (toString entry.1) (entry.2.getConfig (handlerState entry.1))).bind
      (getConfigLoop handlerState rest)

/-- Source lines 77-83: the returned tree and the object afterwards; `none`
when the json library throws. -/
def getConfig (s : State σ) : Option (Json × State σ) :=
  (getConfigLoop s.handlerState s.productHandlers.entries s.jsonConfig).map fun j =>
    (j, { s with jsonConfig := j })

/-! ## Device attach and detach (source lines 131-189) -/

/-- Modelled from the spec: cleanupDevice (defined in the absent vendor handler
base class): "release all transport-level resources associated with the binding
(cancel any device-specific transfers, release claimed interface"; the setup
records are "removed per-device on detach".  The active-set views are not
touched. -/
def cleanupDevice (s : State σ) (pair : device_interface_pair) : State σ :=
  { s with
    libusbTransfers := s.libusbTransfers.filter (fun t => !decide (t.handle = pair.deviceHandle)),
    transfersSetUp := s.transfersSetUp.filter (fun d => !decide (d.handle = pair.deviceHandle)),
    trace := s.trace ++
      ((s.libusbTransfers.filter (fun t => decide (t.handle = pair.deviceHandle))).map
        Event.cancelTransfer ++
      [Event.releaseInterface pair.deviceHandle pair.interfaceNumber]) }

/-- Modelled from the spec: claimDevice (defined in the absent vendor handler
base class), TransportLayer `claim(deviceIdentity, descriptor) ->
DeviceInterfaceBinding or failure`.  The outcome comes from the transport; on
success a new binding object is allocated at a fresh address. -/
def claimDevice (T : Transport) (s : State σ) (device : libusb_device)
    (descriptor : libusb_device_descriptor) : Option device_interface_pair × State σ :=
  let s1 : State σ :=
    { s with claimCalls := s.claimCalls + 1,
             trace := s.trace ++ [Event.claimDevice device descriptor.idProduct] }
  match T.claim s.claimCalls device descriptor with
  | none => (none, s1)
  | some r =>
    (some { addr := s.nextPair, device := device, deviceHandle := r.deviceHandle,
            interfaceNumber := r.interfaceNumber, maxPacketSize := r.maxPacketSize,
            productId := descriptor.idProduct },
     { s1 with nextPair := s.nextPair + 1 })

/-- Source lines 164-189.  The loop over the map runs its body for the entry
whose key is the device, if there is one, and then leaves the loop. -/
def handleProductDetach (s : State σ) (device : libusb_device)
    (descriptor : libusb_device_descriptor) : State σ :=
  match s.deviceInterfaceMap.lookup device with
  | none => s
  | some pair =>
    let s1 := s.emit (Event.log LogLine.handlingDeviceDetach)
    let s2 : State σ :=
      match s1.productHandlers.lookup descriptor.idProduct with
      | some handler =>
        { s1 with
          handlerState := Function.update s1.handlerState descriptor.idProduct
            (handler.detachDevice (s1.handlerState descriptor.idProduct) pair.deviceHandle),
          trace := s1.trace ++ [Event.detachDevice descriptor.idProduct pair.deviceHandle] }
      | none => s1
    let s3 := cleanupDevice s2 pair
    let s4 := s3.emit (Event.close pair.deviceHandle)
    let s5 : State σ := { s4 with deviceInterfaces := s4.deviceInterfaces.erase pair }
    { s5 with deviceInterfaceMap := s5.deviceInterfaceMap.erase device }

/-- Line 134. -/
def maxRetries : Nat := 5

/-- Lines 139-147: the claim loop.  `remaining` is `maxRetries - currentAttept`,
so the loop guard `currentAttept < maxRetries` is `remaining > 0`. -/
def claimLoop (T : Transport) (device : libusb_device) (descriptor : libusb_device_descriptor) :
    Nat → Nat → State σ → Option device_interface_pair × State σ
  | 0, _, s => (none, s)
  | remaining + 1, currentAttept, s =>
    match claimDevice T s device descriptor with
    | (some interfacePair, s1) => (some interfacePair, s1)
    | (none, s1) =>
      let s2 := s1.emit (Event.log (LogLine.couldNotClaim currentAttept))
      let s3 := handleProductDetach s2 device descriptor
      let s4 := s3.emit (Event.sleepSeconds 1)
      claimLoop T device descriptor remaining (currentAttept + 1) s4

/-- Lines 150-151: register the binding in both views. -/
def registerPair (s : State σ) (device : libusb_device) (interfacePair : device_interface_pair) :
    State σ :=
  { s with deviceInterfaces := s.deviceInterfaces ++ [interfacePair],
           deviceInterfaceMap := s.deviceInterfaceMap.insert device interfacePair }

/-- Source lines 131-162: the returned flag and the object afterwards.  `none`
is the null dereference at line 138, when a handled product has no handler in
the registry. -/
def handleProductAttach (T : Transport) (s : State σ) (device : libusb_device)
    (descriptor : libusb_device_descriptor) : Option (Bool × State σ) :=
  if descriptor.idProduct ∈ s.handledProducts then
    match s.productHandlers.lookup descriptor.idProduct with
    | none => none
    | some handler =>
      let s1 := s.emit (Event.log (LogLine.handling
        (handler.getProductName (s.handlerState descriptor.idProduct) descriptor.idProduct)))
      match claimLoop T device descriptor maxRetries 0 s1 with
      | (some interfacePair, s2) => some (true, registerPair s2 device interfacePair)
      | (none, s2) => some (false, s2.emit (Event.log LogLine.givingUp))
  else
    some (false, s.emit (Event.log (LogLine.unknownProduct descriptor.idProduct)))

/-- Source lines 121-129: the set of the product identifiers of the bound
devices. -/
def getConnectedDevices (s : State σ) : Finset Int :=
  (s.deviceInterfaceMap.entries.map fun entry => entry.2.productId).toFinset

/-! ## Initialization handshake (source lines 191-206) -/

/-- Constant `LIBUSB_ENDPOINT_OUT` of libusb.h. -/
def LIBUSB_ENDPOINT_OUT : Int := 0x00

/-- Constant `LIBUSB_SUCCESS` of libusb.h. -/
def LIBUSB_SUCCESS : Int := 0

/-- Line 194: the array `key`. -/
def initKey : List Nat := [0x02, 0xb0, 0x04, 0x00, 0x00, 0x00, 0x00, 0x00, 0x00, 0x00]

/-- Source lines 191-206.  The endpoint argument is an `unsigned char`, hence
the reduction modulo 256. -/
def sendInitKey (T : Transport) (s : State σ) (handle : libusb_device_handle)
    (interface_number : Int) : State σ :=
  let s1 := s.emit (Event.log (LogLine.sendingInitKey interface_number))
  let endpoint := (Int.lor interface_number LIBUSB_ENDPOINT_OUT) % 256
  let result := T.interrupt_transfer handle endpoint initKey 1000
  let s2 := s1.emit (Event.interruptTransfer handle endpoint initKey 1000)
  if result.1 ≠ LIBUSB_SUCCESS then
    s2.emit (Event.log (LogLine.failedToSendKey interface_number result.1))
  else if result.2 ≠ (initKey.length : Int) then
    s2.emit (Event.log (LogLine.didNotSendAllOfKey interface_number result.2))
  else
    s2

/-! ## Reading the effect trace -/

/-- Handler call recorded by an event: registry key and message. -/
def Event.dispatched : Event → Option (Int × unix_socket_message)
  | Event.handleMessage product message _ _ => some (product, message)
  | _ => none

/-- Responses returned by the handler call recorded by an event. -/
def Event.returned : Event → List unix_socket_message
  | Event.handleMessage _ _ _ responses => responses
  | _ => []

/-- Message published to the bus by an event. -/
def Event.published : Event → Option unix_socket_message
  | Event.addMessage message => some message
  | _ => none

/-- Counts reported by an event that is the summary line of a drain cycle. -/
def Event.report : Event → Option (Nat × Nat)
  | Event.log (LogLine.handled handledMessages totalMessages) =>
    some (handledMessages, totalMessages)
  | _ => none

/-- The batch a drain cycle pulls from the bus in state `s` (line 86). -/
def pulledMessages (s : State σ) : List unix_socket_message :=
  (getMessagesFor s.messageQueue message_destination.driver getVendorId).1

/-- What a drain cycle appends to the effect trace. -/
def drainEffects (s : State σ) : List Event :=
  (handleMessages s).trace.drop s.trace.length

/-- Whether the device of a message is a key of the product-handler registry. -/
def routable (s : State σ) (m : unix_socket_message) : Bool :=
  decide (m.device ∈ s.productHandlers)

/-- The object when the dispatch loop starts (after lines 86-96): the batch has
left the queue, cancellation of every outstanding transfer has been requested and
the outstanding set is cleared. -/
def drainStart (s : State σ) : State σ :=
  { s with
    messageQueue := (getMessagesFor s.messageQueue message_destination.driver getVendorId).2,
    libusbTransfers := [],
    trace := s.trace ++ s.libusbTransfers.map Event.cancelTransfer }

/-- One transfer per setup record, in record order: built from the record's
handle, interface number and maximum packet size, and numbered consecutively
from `next`, the first number the allocator has not handed out. -/
def rearmedTransfers (next : Nat) (records : List transfer_setup_data) : List libusb_transfer :=
  List.zipWith
    (fun i d => { id := i, handle := d.handle, interface_number := d.interface_number,
                  maxPacketSize := d.maxPacketSize })
    (List.range' next records.length) records

/-- The effects of one handler call: the call, then the publication of each
response it returned, in the order returned. -/
def callEffects (e : Event) : List Event :=
  e :: e.returned.map Event.addMessage

/-- Transfer submitted by an event. -/
def Event.submitted : Event → Option libusb_transfer
  | Event.submitTransfer t => some t
  | _ => none

/-- Transfer whose cancellation an event requests. -/
def Event.cancelled : Event → Option libusb_transfer
  | Event.cancelTransfer t => some t
  | _ => none

/-- Handler detach hook recorded by an event: registry key and handle. -/
def Event.hooked : Event → Option (Int × libusb_device_handle)
  | Event.detachDevice product handle => some (product, handle)
  | _ => none

/-- Handle closed by an event. -/
def Event.closed : Event → Option libusb_device_handle
  | Event.close handle => some handle
  | _ => none

/-- Interrupt write recorded by an event: handle, endpoint, payload, timeout. -/
def Event.interruptWrite : Event → Option (libusb_device_handle × Int × List Nat × Nat)
  | Event.interruptTransfer handle endpoint data timeout => some (handle, endpoint, data, timeout)
  | _ => none

/-- What the cleanup of a binding appends to the trace: the cancel requests for
the transfers on the binding's handle, then the release of its interface. -/
def cleanupEffects (s : State σ) (pair : device_interface_pair) : List Event :=
  (s.libusbTransfers.filter (fun t => decide (t.handle = pair.deviceHandle))).map
    Event.cancelTransfer ++
  [Event.releaseInterface pair.deviceHandle pair.interfaceNumber]

/-- What sendInitKey appends to the effect trace. -/
def initKeyEffects (T : Transport) (s : State σ) (handle : libusb_device_handle)
    (interface_number : Int) : List Event :=
  (sendInitKey T s handle interface_number).trace.drop s.trace.length

/-- What handleProductDetach appends to the effect trace. -/
def detachEffects (s : State σ) (device : libusb_device)
    (descriptor : libusb_device_descriptor) : List Event :=
  (handleProductDetach s device descriptor).trace.drop s.trace.length

/-- A transport whose claims fail while fewer than `failures` claim calls have
been made and succeed from then on, and whose interrupt writes succeed. -/
def scriptedTransport (failures : Nat) : Transport where
  claim := fun n _ _ =>
    if n < failures then none
    else some { deviceHandle := 70 + n, interfaceNumber := 2, maxPacketSize := 64 }
  interrupt_transfer := fun _ _ data _ => (0, (data.length : Int))

/-- Whether an event is a step of the claim loop itself: a claim attempt, the
line logged after a failed attempt, or a wait. -/
def Event.isAttachStep : Event → Bool
  | Event.claimDevice _ _ => true
  | Event.log (LogLine.couldNotClaim _) => true
  | Event.sleepSeconds _ => true
  | _ => false

/-- The object after a claim attempt that fails and is logged with its attempt
number (lines 140-142). -/
def failedClaim (s : State σ) (device : libusb_device)
    (descriptor : libusb_device_descriptor) (attempt : Nat) : State σ :=
  { s with claimCalls := s.claimCalls + 1,
           trace := s.trace ++ [Event.claimDevice device descriptor.idProduct,
                                Event.log (LogLine.couldNotClaim attempt)] }

/-- One failed round of the claim loop, in the words of the retry policy: a
claim attempt that fails, then a full detach/cleanup pass for the same device
identity, then a wait of one second. -/
def failedAttempt (s : State σ) (device : libusb_device)
    (descriptor : libusb_device_descriptor) (attempt : Nat) : State σ :=
  (handleProductDetach (failedClaim s device descriptor attempt) device descriptor).emit
    (Event.sleepSeconds 1)

/-- Failed rounds in a row: `k` of them, the first with attempt number `attempt`. -/
def failedAttempts (device : libusb_device) (descriptor : libusb_device_descriptor) :
    Nat → Nat → State σ → State σ
  | 0, _, s => s
  | k + 1, attempt, s =>
    failedAttempts device descriptor k (attempt + 1) (failedAttempt s device descriptor attempt)

/-- The object after a claim attempt that succeeds. -/
def successfulAttempt (s : State σ) (device : libusb_device)
    (descriptor : libusb_device_descriptor) : State σ :=
  { s with claimCalls := s.claimCalls + 1, nextPair := s.nextPair + 1,
           trace := s.trace ++ [Event.claimDevice device descriptor.idProduct] }

/-- The binding object a successful claim in state `s` yields. -/
def claimedPair (s : State σ) (device : libusb_device)
    (descriptor : libusb_device_descriptor) (r : claim_result) : device_interface_pair :=
  { addr := s.nextPair, device := device, deviceHandle := r.deviceHandle,
    interfaceNumber := r.interfaceNumber, maxPacketSize := r.maxPacketSize,
    productId := descriptor.idProduct }

/-- The steps of `k` failed rounds, numbered from `attempt`. -/
def failedSteps (device : libusb_device) (descriptor : libusb_device_descriptor)
    (attempt k : Nat) : List Event :=
  (List.range' attempt k).flatMap fun i =>
    [Event.claimDevice device descriptor.idProduct, Event.log (LogLine.couldNotClaim i),
     Event.sleepSeconds 1]

/-- The object when the claim loop starts (after line 138, which logs the name
of the product). -/
def attachStart (s : State σ) (handler : tablet_handler σ)
    (descriptor : libusb_device_descriptor) : State σ :=
  s.emit (Event.log (LogLine.handling
    (handler.getProductName (s.handlerState descriptor.idProduct) descriptor.idProduct)))

/-! ## Reading configuration trees -/

/-- The sub-object a product ends up with, given what the tree held under its
key: that value when it is there and not null, the empty object otherwise. -/
def Json.orEmpty : Option Json → Json
  | some v => if v.isNull then Json.emptyObject else v
  | none => Json.emptyObject

/-- A configuration tree: a mapping from keys to values, or null (the tree that
has not been populated yet). -/
def Json.isTree : Json → Bool
  | Json.null => true
  | Json.object _ => true
  | _ => false

/-! ## Sequences of hotplug events -/

/-- A hotplug call into the handler. -/
inductive Call
  | attach (device : libusb_device) (descriptor : libusb_device_descriptor)
  | detach (device : libusb_device) (descriptor : libusb_device_descriptor)
  deriving DecidableEq

/-- One hotplug call; `none` when handleProductAttach hits the null dereference. -/
def step (T : Transport) (s : State σ) : Call → Option (State σ)
  | Call.attach device descriptor =>
    (handleProductAttach T s device descriptor).map Prod.snd
  | Call.detach device descriptor => some (handleProductDetach s device descriptor)

/-- A finite sequence of hotplug calls, one after the other. -/
def run (T : Transport) : List Call → State σ → Option (State σ)
  | [], s => some s
  | call :: rest, s => (step T s call).bind (run T rest)

/-- The two views hold the same bindings: a binding is the value of some entry
of the identity lookup exactly when it occurs in the flat collection, and then
it occurs there exactly once. -/
def ViewsAgree (s : State σ) : Prop :=
  ∀ b : device_interface_pair,
    ((∃ d, s.deviceInterfaceMap.lookup d = some b) ↔ b ∈ s.deviceInterfaces) ∧
    (b ∈ s.deviceInterfaces → s.deviceInterfaces.count b = 1)

/-- The lookup is contained in the flat collection: every binding of the lookup
occurs in the flat collection, no binding occurs there twice, and no two device
identities map to the same binding. -/
def LookupWithinFlat (s : State σ) : Prop :=
  s.deviceInterfaces.Nodup ∧
  (∀ d b, s.deviceInterfaceMap.lookup d = some b → b ∈ s.deviceInterfaces) ∧
  (∀ d1 d2 b, s.deviceInterfaceMap.lookup d1 = some b →
    s.deviceInterfaceMap.lookup d2 = some b → d1 = d2)

/-- Every binding of the flat collection is the value of some entry of the
lookup. -/
def FlatWithinLookup (s : State σ) : Prop :=
  ∀ b ∈ s.deviceInterfaces, ∃ d, s.deviceInterfaceMap.lookup d = some b

/-- What every hotplug call keeps: the lookup is within the flat collection, and
every binding of the flat collection has been allocated (its address is below
the allocation counter). -/
def ActiveSetOK (s : State σ) : Prop :=
  LookupWithinFlat s ∧ ∀ b ∈ s.deviceInterfaces, b.addr < s.nextPair

/-- Whether a call, made in state `s`, is not an attach of a supported product
for an identity that is bound and whose first claim attempt succeeds. -/
def firstClaimFailsIfBound (T : Transport) (s : State σ) : Call → Bool
  | Call.attach device descriptor =>
    (s.deviceInterfaceMap.lookup device).isNone ||
    !decide (descriptor.idProduct ∈ s.handledProducts) ||
    (T.claim s.claimCalls device descriptor).isNone
  | Call.detach _ _ => true

/-- Whether `firstClaimFailsIfBound` holds of every call of the sequence, in the
state in which the call is made. -/
def noClaimWhileBound (T : Transport) : List Call → State σ → Bool
  | [], _ => true
  | call :: rest, s =>
    firstClaimFailsIfBound T s call &&
    (match step T s call with
     | some s1 => noClaimWhileBound T rest s1
     | none => true)

/-! ## A concrete vendor with two products -/

/-- A handler whose own state counts the messages it has handled and which
answers every message with one response to the user interface. -/
def countingHandler : tablet_handler Nat where
  getProductName := fun _ _ => "tablet"
  setConfig := fun st _ => st
  getConfig := fun _ => Json.null
  handleMessage := fun st m =>
    (st + 1, [{ destination := message_destination.gui, vendor := m.vendor,
                device := m.device, data := m.data }])
  detachDevice := fun st _ => st

/-- Product identifier A of the example. -/
def productA : Int := 0x091b

/-- Product identifier B of the example. -/
def productB : Int := 0x090b

/-- Binding of the one attached device, of product A. -/
def bindingA : device_interface_pair :=
  { addr := 0, device := 7, deviceHandle := 70, interfaceNumber := 2, maxPacketSize := 64,
    productId := productA }

/-- A message for the driver of this vendor. -/
def driverMessage (device : Int) (data : List Nat) : unix_socket_message :=
  { destination := message_destination.driver, vendor := getVendorId, device := device,
    data := data }

/-- Vendor with products A and B registered, one device of product A attached
with one armed transfer, and three pending messages: two for A, one for B. -/
def scenarioState : State Nat :=
  { productHandlers :=
      (AList.insert productA countingHandler
        (AList.insert productB countingHandler ∅)),
    handlerState := fun _ => 0,
    handledProducts := [productA, productB],
    jsonConfig := Json.null,
    messageQueue := [driverMessage productA [1], driverMessage productA [2],
                     driverMessage productB [3]],
    libusbTransfers := [{ id := 0, handle := 70, interface_number := 2, maxPacketSize := 64 }],
    transfersSetUp := [{ handle := 70, interface_number := 2, maxPacketSize := 64,
                         productId := productA }],
    deviceInterfaces := [bindingA],
    deviceInterfaceMap := AList.insert 7 bindingA ∅,
    nextTransfer := 1,
    nextPair := 1,
    claimCalls := 1,
    trace := [] }

/-- The vendor of the example before any device is attached. -/
def vendorStart : State Nat :=
  { scenarioState with
    messageQueue := [], libusbTransfers := [], transfersSetUp := [],
    deviceInterfaces := [], deviceInterfaceMap := ∅,
    nextTransfer := 0, nextPair := 0, claimCalls := 0 }

/-- Descriptor of a device of product A. -/
def descriptorA : libusb_device_descriptor :=
  { idVendor := getVendorId, idProduct := productA }

/-- A transport whose claims fail on every even-numbered claim call and succeed
on every odd-numbered one. -/
def alternatingTransport : Transport where
  claim := fun n _ _ =>
    if n % 2 = 0 then none
    else some { deviceHandle := 70 + n, interfaceNumber := 2, maxPacketSize := 64 }
  interrupt_transfer := fun _ _ data _ => (0, (data.length : Int))

/-- The binding the first successful claim of device 7 yields in the example. -/
def firstPair : device_interface_pair :=
  { addr := 0, device := 7, deviceHandle := 70, interfaceNumber := 2, maxPacketSize := 64,
    productId := productA }

/-- The binding the second successful claim of device 7 yields in the example. -/
def secondPair : device_interface_pair :=
  { addr := 1, device := 7, deviceHandle := 71, interfaceNumber := 2, maxPacketSize := 64,
    productId := productA }

/-- A handler whose own state is the configuration last given to it. -/
def storingHandler : tablet_handler Json where
  getProductName := fun _ _ => "tablet"
  setConfig := fun _ config => config
  getConfig := fun st => st
  handleMessage := fun st _ => (st, [])
  detachDevice := fun st _ => st

/-- A vendor with products A and B whose handlers store their configuration. -/
def configState : State Json :=
  { productHandlers :=
      (AList.insert productA storingHandler (AList.insert productB storingHandler ∅)),
    handlerState := fun _ => Json.null,
    handledProducts := [productA, productB],
    jsonConfig := Json.null,
    messageQueue := [],
    libusbTransfers := [],
    transfersSetUp := [],
    deviceInterfaces := [],
    deviceInterfaceMap := ∅,
    nextTransfer := 0,
    nextPair := 0,
    claimCalls := 0,
    trace := [] }

/-- A configuration tree with a sub-object for product A, a null entry for
product B and a vendor-level key. -/
def configTree : Json :=
  Json.object [("2331", Json.object [("pressure", Json.number 5)]),
               ("2315", Json.null),
               ("vendor", Json.string "XP-Pen")]

/-! # Theorems -/

/-! ## Drain cycle -/

theorem foldl_addMessage_eq (responses : List unix_socket_message) (s : State σ) :
    responses.foldl addMessage s =
      { s with messageQueue := s.messageQueue ++ responses,
               trace := s.trace ++ responses.map Event.addMessage } := by
  induction responses generalizing s with
  | nil => simp
  | cons r rest ih => simp [List.foldl_cons, ih, addMessage]

/-- Members a run of the dispatch loop leaves alone. -/
theorem dispatchLoop_frame (messages : List unix_socket_message) (s : State σ) (n : Nat) :
    (dispatchLoop messages (s, n)).1.productHandlers = s.productHandlers ∧
    (dispatchLoop messages (s, n)).1.libusbTransfers = s.libusbTransfers ∧
    (dispatchLoop messages (s, n)).1.transfersSetUp = s.transfersSetUp ∧
    (dispatchLoop messages (s, n)).1.nextTransfer = s.nextTransfer ∧
    (dispatchLoop messages (s, n)).1.deviceInterfaces = s.deviceInterfaces ∧
    (dispatchLoop messages (s, n)).1.deviceInterfaceMap = s.deviceInterfaceMap := by
  induction messages generalizing s n with
  | nil => simp [dispatchLoop]
  | cons m rest ih =>
    simp only [dispatchLoop]
    cases h : s.productHandlers.lookup m.device with
    | none => simpa using ih s n
    | some handler =>
      simp only [foldl_addMessage_eq]
      exact ih _ _

theorem rearmedTransfers_cons (next : Nat) (d : transfer_setup_data)
    (rest : List transfer_setup_data) :
    rearmedTransfers next (d :: rest) =
      { id := next, handle := d.handle, interface_number := d.interface_number,
        maxPacketSize := d.maxPacketSize } :: rearmedTransfers (next + 1) rest := by
  simp [rearmedTransfers, List.range'_succ]

theorem rearmedTransfers_length (next : Nat) (records : List transfer_setup_data) :
    (rearmedTransfers next records).length = records.length := by
  simp [rearmedTransfers]

theorem rearmedTransfers_id_ge (records : List transfer_setup_data) (next : Nat) :
    ∀ t ∈ rearmedTransfers next records, next ≤ t.id := by
  induction records generalizing next with
  | nil => simp [rearmedTransfers]
  | cons d rest ih =>
    intro t ht
    rw [rearmedTransfers_cons] at ht
    rcases List.mem_cons.1 ht with h | h
    · simp [h]
    · exact Nat.le_of_succ_le (ih (next + 1) t h)

theorem rearmedTransfers_nodup (records : List transfer_setup_data) (next : Nat) :
    (rearmedTransfers next records).Nodup := by
  induction records generalizing next with
  | nil => simp [rearmedTransfers]
  | cons d rest ih =>
    rw [rearmedTransfers_cons, List.nodup_cons]
    refine ⟨fun hmem => ?_, ih (next + 1)⟩
    have := rearmedTransfers_id_ge rest (next + 1) _ hmem
    simp at this

theorem rearmLoop_eq (records : List transfer_setup_data) (s : State σ) :
    rearmLoop records s =
      { s with nextTransfer := s.nextTransfer + records.length,
               libusbTransfers := s.libusbTransfers ++ rearmedTransfers s.nextTransfer records,
               trace := s.trace ++
                 (rearmedTransfers s.nextTransfer records).map Event.submitTransfer } := by
  induction records generalizing s with
  | nil => simp [rearmLoop, rearmedTransfers]
  | cons d rest ih =>
    simp only [rearmLoop, ih, setupTransfers, rearmedTransfers_cons]
    simp [Nat.add_comm, Nat.add_left_comm, Nat.add_assoc]

/-- The effects of the dispatch loop: a list of handler calls, each followed by
the publication of its responses. -/
theorem dispatchLoop_effects (messages : List unix_socket_message) (s : State σ) (n : Nat) :
    ∃ calls : List Event,
      (dispatchLoop messages (s, n)).1.trace = s.trace ++ calls.flatMap callEffects ∧
      calls.map Event.dispatched =
        (messages.filter (routable s)).map (fun m => some (m.device, m)) ∧
      (∀ e ∈ calls, ∃ m handler st,
        s.productHandlers.lookup m.device = some handler ∧
        e = Event.handleMessage m.device m s.libusbTransfers (handler.handleMessage st m).2) ∧
      (dispatchLoop messages (s, n)).1.messageQueue =
        s.messageQueue ++ calls.flatMap Event.returned ∧
      (dispatchLoop messages (s, n)).2 = n + (messages.filter (routable s)).length := by
  induction messages generalizing s n with
  | nil => exact ⟨[], by simp [dispatchLoop]⟩
  | cons m rest ih =>
    simp only [dispatchLoop]
    cases h : s.productHandlers.lookup m.device with
    | none =>
      have hr : routable s m = false := by
        simp [routable, ← AList.lookup_eq_none, h]
      obtain ⟨calls, h1, h2, h3, h4, h5⟩ := ih s n
      exact ⟨calls, by simpa using h1, by simpa [List.filter_cons, hr] using h2, h3,
        by simpa using h4, by simpa [List.filter_cons, hr] using h5⟩
    | some handler =>
      have hr : routable s m = true := by
        simp [routable, ← AList.lookup_isSome, h]
      simp only [foldl_addMessage_eq]
      obtain ⟨calls, h1, h2, h3, h4, h5⟩ := ih
        { s with
          handlerState := Function.update s.handlerState m.device
            (handler.handleMessage (s.handlerState m.device) m).1,
          messageQueue := s.messageQueue ++ (handler.handleMessage (s.handlerState m.device) m).2,
          trace := s.trace ++
            [Event.handleMessage m.device m s.libusbTransfers
              (handler.handleMessage (s.handlerState m.device) m).2] ++
            (handler.handleMessage (s.handlerState m.device) m).2.map Event.addMessage }
        (n + 1)
      refine ⟨Event.handleMessage m.device m s.libusbTransfers
          (handler.handleMessage (s.handlerState m.device) m).2 :: calls, ?_, ?_, ?_, ?_, ?_⟩
      · simpa [callEffects, Event.returned, List.append_assoc] using h1
      · have : routable
            { s with
              handlerState := Function.update s.handlerState m.device
                (handler.handleMessage (s.handlerState m.device) m).1,
              messageQueue :=
                s.messageQueue ++ (handler.handleMessage (s.handlerState m.device) m).2,
              trace := s.trace ++
                [Event.handleMessage m.device m s.libusbTransfers
                  (handler.handleMessage (s.handlerState m.device) m).2] ++
                (handler.handleMessage (s.handlerState m.device) m).2.map Event.addMessage } =
            routable s := rfl
        rw [this] at h2
        simp [List.filter_cons, hr, Event.dispatched, h2]
      · intro e he
        rcases List.mem_cons.1 he with he | he
        · exact ⟨m, handler, s.handlerState m.device, h, he⟩
        · exact h3 e he
      · simpa [Event.returned, List.append_assoc] using h4
      · have : routable
            { s with
              handlerState := Function.update s.handlerState m.device
                (handler.handleMessage (s.handlerState m.device) m).1,
              messageQueue :=
                s.messageQueue ++ (handler.handleMessage (s.handlerState m.device) m).2,
              trace := s.trace ++
                [Event.handleMessage m.device m s.libusbTransfers
                  (handler.handleMessage (s.handlerState m.device) m).2] ++
                (handler.handleMessage (s.handlerState m.device) m).2.map Event.addMessage } =
            routable s := rfl
        rw [this] at h5
        refine h5.trans ?_
        simp [List.filter_cons, hr]
        omega

theorem handleMessages_of_empty (s : State σ) (h : pulledMessages s = []) :
    handleMessages s = s := by
  have hrest : (getMessagesFor s.messageQueue message_destination.driver getVendorId).2 =
      s.messageQueue := by
    simp only [pulledMessages, getMessagesFor, List.filter_eq_nil_iff] at h
    simp only [getMessagesFor, List.filter_eq_self]
    intro m hm
    have := h m hm
    simp only [decide_eq_true_eq] at this
    simp only [Bool.not_eq_true', decide_eq_false_iff_not]
    exact this
  have hlen : ¬ (getMessagesFor s.messageQueue message_destination.driver getVendorId).1.length
      > 0 := by
    have : (getMessagesFor s.messageQueue message_destination.driver getVendorId).1 = [] := h
    simp [this]
  simp only [handleMessages, hlen, if_false, hrest]

theorem handleMessages_pulled_eq (s : State σ) (h : pulledMessages s ≠ []) :
    handleMessages s =
      (rearmLoop (dispatchLoop (pulledMessages s) (drainStart s, 0)).1.transfersSetUp
        (dispatchLoop (pulledMessages s) (drainStart s, 0)).1).emit
        (Event.log (LogLine.handled (dispatchLoop (pulledMessages s) (drainStart s, 0)).2
          (pulledMessages s).length)) := by
  have hlen : (getMessagesFor s.messageQueue message_destination.driver getVendorId).1.length
      > 0 := List.length_pos.2 h
  simp only [handleMessages, hlen, if_true]
  rfl

theorem handleMessages_of_pulled (s : State σ) (h : pulledMessages s ≠ []) :
    ∃ calls : List Event,
      (handleMessages s).trace = s.trace ++
        (s.libusbTransfers.map Event.cancelTransfer ++ calls.flatMap callEffects ++
          (rearmedTransfers s.nextTransfer s.transfersSetUp).map Event.submitTransfer ++
          [Event.log (LogLine.handled ((pulledMessages s).filter (routable s)).length
            (pulledMessages s).length)]) ∧
      calls.map Event.dispatched =
        ((pulledMessages s).filter (routable s)).map (fun m => some (m.device, m)) ∧
      (∀ e ∈ calls, ∃ m handler st,
        s.productHandlers.lookup m.device = some handler ∧
        e = Event.handleMessage m.device m [] (handler.handleMessage st m).2) ∧
      (handleMessages s).libusbTransfers = rearmedTransfers s.nextTransfer s.transfersSetUp ∧
      (handleMessages s).transfersSetUp = s.transfersSetUp ∧
      (handleMessages s).messageQueue =
        (getMessagesFor s.messageQueue message_destination.driver getVendorId).2 ++
          calls.flatMap Event.returned := by
  obtain ⟨calls, h1, h2, h3, h4, h5⟩ := dispatchLoop_effects (pulledMessages s) (drainStart s) 0
  obtain ⟨-, f2, f3, f4, -, -⟩ := dispatchLoop_frame (pulledMessages s) (drainStart s) 0
  have hr : routable (drainStart s) = routable s := rfl
  rw [hr] at h2 h5
  rw [handleMessages_pulled_eq s h]
  generalize dispatchLoop (pulledMessages s) (drainStart s, 0) = D at h1 h4 h5 f2 f3 f4
  refine ⟨calls, ?_, h2, h3, ?_, ?_, ?_⟩
  · simp [rearmLoop_eq, State.emit, h1, h5, f3, f4, drainStart, List.append_assoc]
  · simp [rearmLoop_eq, State.emit, f2, f3, f4, drainStart]
  · simp [rearmLoop_eq, State.emit, f3, drainStart]
  · simp [rearmLoop_eq, State.emit, h4, drainStart]

/-! ### Reading the trace of a drain cycle -/

theorem filterMap_map_none {α β γ : Type} (f : β → Option γ) (g : α → β)
    (h : ∀ x, f (g x) = none) (l : List α) : (l.map g).filterMap f = [] := by
  induction l with
  | nil => rfl
  | cons x rest ih => simp [List.filterMap_cons, h, ih]

theorem flatMap_map_nil {α β γ : Type} (f : β → List γ) (g : α → β)
    (h : ∀ x, f (g x) = []) (l : List α) : (l.map g).flatMap f = [] := by
  induction l with
  | nil => rfl
  | cons x rest ih => simp [List.flatMap_cons, h, ih]

theorem filterMap_map_some {α β : Type} (l : List α) (f : α → β) :
    (l.map fun x => some (f x)).filterMap id = l.map f := by
  induction l with
  | nil => rfl
  | cons x rest ih => simp [List.filterMap_cons, ih]

theorem filterMap_published_addMessage (rs : List unix_socket_message) :
    (rs.map Event.addMessage).filterMap Event.published = rs := by
  induction rs with
  | nil => rfl
  | cons r rest ih => simp [List.filterMap_cons, Event.published, ih]

theorem mem_calls_of_mem_drain (cancels armed : List libusb_transfer) (calls : List Event)
    (line : LogLine) (p : Int) (m : unix_socket_message) (o : List libusb_transfer)
    (rs : List unix_socket_message)
    (h : Event.handleMessage p m o rs ∈ cancels.map Event.cancelTransfer ++
      calls.flatMap callEffects ++ armed.map Event.submitTransfer ++ [Event.log line]) :
    Event.handleMessage p m o rs ∈ calls := by
  rcases List.mem_append.1 h with h | h
  · rcases List.mem_append.1 h with h | h
    · rcases List.mem_append.1 h with h | h
      · obtain ⟨t, -, ht⟩ := List.mem_map.1 h
        cases ht
      · obtain ⟨c, hcm, hc⟩ := List.mem_flatMap.1 h
        rcases List.mem_cons.1 hc with hc | hc
        · rw [hc]; exact hcm
        · obtain ⟨r, -, hr⟩ := List.mem_map.1 hc
          cases hr
    · obtain ⟨t, -, ht⟩ := List.mem_map.1 h
      cases ht
  · rw [List.mem_singleton] at h
    cases h

theorem calls_read (calls : List Event)
    (hc : ∀ e ∈ calls, ∃ p m o rs, e = Event.handleMessage p m o rs) :
    (calls.flatMap callEffects).filterMap Event.dispatched =
        (calls.map Event.dispatched).filterMap id ∧
    (calls.flatMap callEffects).filterMap Event.published = calls.flatMap Event.returned ∧
    (calls.flatMap callEffects).flatMap Event.returned = calls.flatMap Event.returned ∧
    (calls.flatMap callEffects).filterMap Event.report = [] := by
  induction calls with
  | nil => simp
  | cons e rest ih =>
    obtain ⟨p, m, o, rs, rfl⟩ := hc _ (List.mem_cons_self _ _)
    obtain ⟨i1, i2, i3, i4⟩ := ih (fun e he => hc e (List.mem_cons_of_mem _ he))
    have d : (rs.map Event.addMessage).filterMap Event.dispatched = [] :=
      filterMap_map_none _ _ (fun _ => rfl) rs
    have q : (rs.map Event.addMessage).filterMap Event.published = rs :=
      filterMap_published_addMessage rs
    have r : (rs.map Event.addMessage).flatMap Event.returned = [] :=
      flatMap_map_nil _ _ (fun _ => rfl) rs
    have t : (rs.map Event.addMessage).filterMap Event.report = [] :=
      filterMap_map_none _ _ (fun _ => rfl) rs
    refine ⟨?_, ?_, ?_, ?_⟩
    · simp [List.flatMap_cons, callEffects, List.filterMap_append, List.filterMap_cons,
        Event.dispatched, Event.returned, d, i1]
    · simp [List.flatMap_cons, callEffects, List.filterMap_append, List.filterMap_cons,
        Event.published, Event.returned, q, i2]
    · simp [List.flatMap_cons, callEffects, List.flatMap_append, Event.returned, r, i3]
    · simp [List.flatMap_cons, callEffects, List.filterMap_append, List.filterMap_cons,
        Event.report, Event.returned, t, i4]

theorem drain_read (cancels armed : List libusb_transfer) (calls : List Event) (a b : Nat)
    (hc : ∀ e ∈ calls, ∃ p m o rs, e = Event.handleMessage p m o rs) :
    (cancels.map Event.cancelTransfer ++ calls.flatMap callEffects ++
        armed.map Event.submitTransfer ++
        [Event.log (LogLine.handled a b)]).filterMap Event.dispatched =
      (calls.map Event.dispatched).filterMap id ∧
    (cancels.map Event.cancelTransfer ++ calls.flatMap callEffects ++
        armed.map Event.submitTransfer ++
        [Event.log (LogLine.handled a b)]).filterMap Event.published =
      calls.flatMap Event.returned ∧
    (cancels.map Event.cancelTransfer ++ calls.flatMap callEffects ++
        armed.map Event.submitTransfer ++
        [Event.log (LogLine.handled a b)]).flatMap Event.returned =
      calls.flatMap Event.returned ∧
    (cancels.map Event.cancelTransfer ++ calls.flatMap callEffects ++
        armed.map Event.submitTransfer ++
        [Event.log (LogLine.handled a b)]).filterMap Event.report = [(a, b)] := by
  obtain ⟨i1, i2, i3, i4⟩ := calls_read calls hc
  refine ⟨?_, ?_, ?_, ?_⟩
  · simp only [List.filterMap_append, i1,
      filterMap_map_none Event.dispatched Event.cancelTransfer (fun _ => rfl),
      filterMap_map_none Event.dispatched Event.submitTransfer (fun _ => rfl)]
    simp [Event.dispatched]
  · simp only [List.filterMap_append, i2,
      filterMap_map_none Event.published Event.cancelTransfer (fun _ => rfl),
      filterMap_map_none Event.published Event.submitTransfer (fun _ => rfl)]
    simp [Event.published]
  · simp only [List.flatMap_append, i3,
      flatMap_map_nil Event.returned Event.cancelTransfer (fun _ => rfl),
      flatMap_map_nil Event.returned Event.submitTransfer (fun _ => rfl)]
    simp [Event.returned]
  · simp only [List.filterMap_append, i4,
      filterMap_map_none Event.report Event.cancelTransfer (fun _ => rfl),
      filterMap_map_none Event.report Event.submitTransfer (fun _ => rfl)]
    simp [Event.report]

theorem drainEffects_of_empty (s : State σ) (h : pulledMessages s = []) :
    drainEffects s = [] := by
  simp [drainEffects, handleMessages_of_empty s h]

/-- Routing, publication and report of a drain cycle that pulled a message. -/
theorem drain_of_pulled (s : State σ) (h : pulledMessages s ≠ []) :
    (drainEffects s).filterMap Event.dispatched =
      ((pulledMessages s).filter (routable s)).map (fun m => (m.device, m)) ∧
    (∀ e ∈ drainEffects s, ∀ p m o rs, e = Event.handleMessage p m o rs →
      p = m.device ∧ m ∈ pulledMessages s ∧
      ∃ handler st, s.productHandlers.lookup m.device = some handler ∧
        rs = (handler.handleMessage st m).2) ∧
    (drainEffects s).filterMap Event.published = (drainEffects s).flatMap Event.returned ∧
    (handleMessages s).messageQueue =
      (getMessagesFor s.messageQueue message_destination.driver getVendorId).2 ++
        (drainEffects s).filterMap Event.published ∧
    (drainEffects s).filterMap Event.report =
      [(((pulledMessages s).filter (routable s)).length, (pulledMessages s).length)] := by
  obtain ⟨calls, h1, h2, h3, -, -, h6⟩ := handleMessages_of_pulled s h
  have hc : ∀ e ∈ calls, ∃ p m o rs, e = Event.handleMessage p m o rs := by
    intro e he
    obtain ⟨m, handler, st, -, rfl⟩ := h3 e he
    exact ⟨_, _, _, _, rfl⟩
  have hd : drainEffects s = s.libusbTransfers.map Event.cancelTransfer ++
      calls.flatMap callEffects ++
      (rearmedTransfers s.nextTransfer s.transfersSetUp).map Event.submitTransfer ++
      [Event.log (LogLine.handled ((pulledMessages s).filter (routable s)).length
        (pulledMessages s).length)] := by
    simp only [drainEffects, h1, List.drop_left]
  obtain ⟨r1, r2, r3, r4⟩ := drain_read s.libusbTransfers
    (rearmedTransfers s.nextTransfer s.transfersSetUp) calls
    ((pulledMessages s).filter (routable s)).length (pulledMessages s).length hc
  rw [hd]
  refine ⟨?_, ?_, ?_, ?_, r4⟩
  · rw [r1, h2, filterMap_map_some]
  · intro e he p m o rs hev
    have hin : e ∈ calls := by
      subst hev
      exact mem_calls_of_mem_drain _ _ _ _ _ _ _ _ he
    obtain ⟨m0, handler, st, hl, he0⟩ := h3 e hin
    rw [hev] at he0
    injection he0 with e1 e2 e3 e4
    subst e2
    refine ⟨e1, ?_, handler, st, hl, e4⟩
    have hmem : some (m.device, m) ∈ calls.map Event.dispatched := by
      refine List.mem_map.2 ⟨e, hin, ?_⟩
      rw [hev, e1]; rfl
    rw [h2] at hmem
    obtain ⟨m1, hm1, hm1e⟩ := List.mem_map.1 hmem
    have : m1 = m := by
      injection hm1e with hm1e
      exact (Prod.mk.inj hm1e).2
    subst this
    exact (List.mem_filter.1 hm1).1
  · rw [r2, r3]
  · rw [h6, r2]

/-- A drain cycle that pulls nothing leaves the queue as it is. -/
theorem queue_of_empty (s : State σ) (h : pulledMessages s = []) :
    (getMessagesFor s.messageQueue message_destination.driver getVendorId).2 =
      s.messageQueue := by
  have := handleMessages_of_empty s h
  simp only [handleMessages] at this
  have hlen : ¬ (getMessagesFor s.messageQueue message_destination.driver
      getVendorId).1.length > 0 := by
    have h0 : (getMessagesFor s.messageQueue message_destination.driver getVendorId).1 = [] := h
    simp [h0]
  simp only [hlen, if_false] at this
  exact congrArg State.messageQueue this

/-- C1. Message routing in one drain cycle: the handler calls of the cycle are
exactly the pulled messages whose device is a key of the registry, once each, in
batch order, each made on the handler stored under the device of the message
(so a message whose device is not a key reaches no handler); the messages
published to the bus are the responses those calls returned, in the order
returned, and they are what the cycle adds to the queue; the cycle reports, when
the batch is not empty, the number of routable messages as handled and the
length of the batch as total, and an empty batch has no effect and no report. -/
theorem C1_message_routing (s : State σ) :
    (drainEffects s).filterMap Event.dispatched =
      ((pulledMessages s).filter (routable s)).map (fun m => (m.device, m)) ∧
    (∀ e ∈ drainEffects s, ∀ p m o rs, e = Event.handleMessage p m o rs →
      p = m.device ∧ m ∈ pulledMessages s ∧
      ∃ handler st, s.productHandlers.lookup m.device = some handler ∧
        rs = (handler.handleMessage st m).2) ∧
    (drainEffects s).filterMap Event.published = (drainEffects s).flatMap Event.returned ∧
    (handleMessages s).messageQueue =
      (getMessagesFor s.messageQueue message_destination.driver getVendorId).2 ++
        (drainEffects s).filterMap Event.published ∧
    (drainEffects s).filterMap Event.report =
      (if pulledMessages s = [] then []
       else [(((pulledMessages s).filter (routable s)).length, (pulledMessages s).length)]) ∧
    (pulledMessages s = [] → drainEffects s = []) := by
  by_cases h : pulledMessages s = []
  · have he := drainEffects_of_empty s h
    have hq := queue_of_empty s h
    simp [he, h, handleMessages_of_empty s h, hq]
  · obtain ⟨h1, h2, h3, h4, h5⟩ := drain_of_pulled s h
    exact ⟨h1, h2, h3, h4, by rw [h5, if_neg h], fun h0 => absurd h0 h⟩

theorem C1_message_routing_witness :
    (drainEffects scenarioState).filterMap Event.dispatched =
      ((pulledMessages scenarioState).filter (routable scenarioState)).map
        (fun m => (m.device, m)) :=
  (C1_message_routing scenarioState).1

/-! ### Routing and the active bindings -/

theorem dispatchLoop_views (messages : List unix_socket_message) (s : State σ) (n : Nat)
    (flat : List device_interface_pair)
    (map : AList (fun _ : libusb_device => device_interface_pair)) :
    dispatchLoop messages ({ s with deviceInterfaces := flat, deviceInterfaceMap := map }, n) =
      ({ (dispatchLoop messages (s, n)).1 with
          deviceInterfaces := flat, deviceInterfaceMap := map },
       (dispatchLoop messages (s, n)).2) := by
  induction messages generalizing s n with
  | nil => rfl
  | cons m rest ih =>
    simp only [dispatchLoop]
    cases h : s.productHandlers.lookup m.device with
    | none => exact ih s n
    | some handler =>
      simp only [foldl_addMessage_eq]
      exact ih
        { s with
          handlerState := Function.update s.handlerState m.device
            (handler.handleMessage (s.handlerState m.device) m).1,
          messageQueue := s.messageQueue ++ (handler.handleMessage (s.handlerState m.device) m).2,
          trace := s.trace ++
            [Event.handleMessage m.device m s.libusbTransfers
              (handler.handleMessage (s.handlerState m.device) m).2] ++
            (handler.handleMessage (s.handlerState m.device) m).2.map Event.addMessage }
        (n + 1)

theorem handleMessages_views (s : State σ) (flat : List device_interface_pair)
    (map : AList (fun _ : libusb_device => device_interface_pair)) :
    handleMessages { s with deviceInterfaces := flat, deviceInterfaceMap := map } =
      { handleMessages s with deviceInterfaces := flat, deviceInterfaceMap := map } := by
  by_cases h : pulledMessages s = []
  · have h2 : pulledMessages { s with deviceInterfaces := flat, deviceInterfaceMap := map } =
        [] := h
    rw [handleMessages_of_empty _ h2, handleMessages_of_empty _ h]
  · have h2 : pulledMessages { s with deviceInterfaces := flat, deviceInterfaceMap := map } ≠
        [] := h
    rw [handleMessages_pulled_eq _ h2, handleMessages_pulled_eq _ h]
    have hp : pulledMessages { s with deviceInterfaces := flat, deviceInterfaceMap := map } =
        pulledMessages s := rfl
    have hs : drainStart { s with deviceInterfaces := flat, deviceInterfaceMap := map } =
        { drainStart s with deviceInterfaces := flat, deviceInterfaceMap := map } := rfl
    rw [hp, hs, dispatchLoop_views]
    simp only [rearmLoop_eq, State.emit]

/-- C2, as amended. Routing looks only at the product-handler registry: a pulled
message whose device is not a key of the registry reaches no handler and is not
counted as handled, a pulled message whose device is a key is counted as handled
whether or not a device of that product is attached, and a drain cycle has the
same effects whatever the two active-set views hold. -/
theorem C2_routing_ignores_bindings (s : State σ) :
    (∀ m ∈ pulledMessages s, m.device ∉ s.productHandlers →
      ∀ e ∈ drainEffects s, ∀ p o rs, e ≠ Event.handleMessage p m o rs) ∧
    (∀ m ∈ pulledMessages s, m.device ∈ s.productHandlers →
      (m.device, m) ∈ (drainEffects s).filterMap Event.dispatched) ∧
    (pulledMessages s ≠ [] →
      (drainEffects s).filterMap Event.report =
        [(((pulledMessages s).filter
            (fun m => decide (m.device ∈ s.productHandlers))).length,
          (pulledMessages s).length)]) ∧
    (∀ (flat : List device_interface_pair)
       (map : AList (fun _ : libusb_device => device_interface_pair)),
      drainEffects { s with deviceInterfaces := flat, deviceInterfaceMap := map } =
        drainEffects s) := by
  refine ⟨?_, ?_, ?_, ?_⟩
  · intro m hm hnot e he p o rs hev
    have hne : pulledMessages s ≠ [] := List.ne_nil_of_mem hm
    obtain ⟨-, -, handler, st, hl, -⟩ := (drain_of_pulled s hne).2.1 e he p m o rs hev
    have : (s.productHandlers.lookup m.device).isSome := by simp [hl]
    exact hnot (AList.lookup_isSome.1 this)
  · intro m hm hin
    rw [(drain_of_pulled s (List.ne_nil_of_mem hm)).1]
    exact List.mem_map.2 ⟨m, List.mem_filter.2 ⟨hm, by simpa [routable] using hin⟩, rfl⟩
  · intro h
    rw [(drain_of_pulled s h).2.2.2.2]
    rfl
  · intro flat map
    simp only [drainEffects, handleMessages_views]

theorem C2_routing_ignores_bindings_witness :
    (pulledMessages scenarioState ≠ [] →
      (drainEffects scenarioState).filterMap Event.report =
        [(((pulledMessages scenarioState).filter
            (fun m => decide (m.device ∈ scenarioState.productHandlers))).length,
          (pulledMessages scenarioState).length)]) ∧
    (drainEffects scenarioState).filterMap Event.report = [(3, 3)] ∧
    (productB, driverMessage productB [3]) ∈
      (drainEffects scenarioState).filterMap Event.dispatched :=
  ⟨(C2_routing_ignores_bindings scenarioState).2.2.1,
   (C2_routing_ignores_bindings scenarioState).2.2.1 (by decide),
   (C2_routing_ignores_bindings scenarioState).2.1 (driverMessage productB [3])
     (by decide) (by decide)⟩

/-- C2, the scenario of the claim: products A and B are registered, the one
attached device is of product A, the batch holds two messages for A and one for
B.  The drain calls handler A twice and handler B once, and reports 3 handled
out of 3, not 2 out of 3. -/
theorem C2_counterexample :
    scenarioState.handledProducts = [productA, productB] ∧
    scenarioState.deviceInterfaces.map (fun b => b.productId) = [productA] ∧
    scenarioState.deviceInterfaceMap.entries.map (fun e => e.2.productId) = [productA] ∧
    (pulledMessages scenarioState).map (fun m => m.device) = [productA, productA, productB] ∧
    ((drainEffects scenarioState).filterMap Event.dispatched).map Prod.fst =
      [productA, productA, productB] ∧
    (drainEffects scenarioState).filterMap Event.report = [(3, 3)] ∧
    ¬ ((((drainEffects scenarioState).filterMap Event.dispatched).filter
          (fun c => decide (c.1 = productB))).length = 0 ∧
       (drainEffects scenarioState).filterMap Event.report = [(2, 3)]) := by
  decide

/-! ### Cancel, dispatch, re-arm -/

theorem calls_read_none {γ : Type} (f : Event → Option γ)
    (hcall : ∀ p m o rs, f (Event.handleMessage p m o rs) = none)
    (hadd : ∀ m, f (Event.addMessage m) = none) (calls : List Event)
    (hc : ∀ e ∈ calls, ∃ p m o rs, e = Event.handleMessage p m o rs) :
    (calls.flatMap callEffects).filterMap f = [] := by
  induction calls with
  | nil => rfl
  | cons e rest ih =>
    obtain ⟨p, m, o, rs, rfl⟩ := hc _ (List.mem_cons_self _ _)
    have i := ih (fun e he => hc e (List.mem_cons_of_mem _ he))
    simp [List.flatMap_cons, callEffects, List.filterMap_append, List.filterMap_cons, hcall,
      Event.returned, filterMap_map_none f Event.addMessage hadd, i]

theorem filterMap_map_all {α β : Type} (f : β → Option α) (g : α → β)
    (h : ∀ x, f (g x) = some x) (l : List α) : (l.map g).filterMap f = l := by
  induction l with
  | nil => rfl
  | cons x rest ih => simp [List.filterMap_cons, h, ih]

/-- C3. Drain cycle invariant.  After a drain cycle that pulled at least one
message the outstanding-transfer set is exactly one freshly submitted transfer
per setup record, in record order, each built from the handle, interface number
and maximum packet size of its record: as many entries as records, no entry
twice, every entry numbered at or above the allocator's counter at entry and
submitted during the cycle, and so none of the transfers outstanding before
(which the allocator handed out earlier); the setup records are unchanged.  A
drain cycle that pulled nothing returns the object as it was. -/
theorem C3_drain_cycle_invariant (s : State σ) :
    (pulledMessages s ≠ [] →
      (handleMessages s).libusbTransfers = rearmedTransfers s.nextTransfer s.transfersSetUp ∧
      (handleMessages s).libusbTransfers.length = s.transfersSetUp.length ∧
      (handleMessages s).libusbTransfers.map
          (fun t => (t.handle, t.interface_number, t.maxPacketSize)) =
        s.transfersSetUp.map (fun d => (d.handle, d.interface_number, d.maxPacketSize)) ∧
      (handleMessages s).libusbTransfers.Nodup ∧
      (drainEffects s).filterMap Event.submitted = (handleMessages s).libusbTransfers ∧
      (∀ t ∈ (handleMessages s).libusbTransfers, s.nextTransfer ≤ t.id) ∧
      ((∀ t ∈ s.libusbTransfers, t.id < s.nextTransfer) →
        ∀ t ∈ s.libusbTransfers, t ∉ (handleMessages s).libusbTransfers) ∧
      (handleMessages s).transfersSetUp = s.transfersSetUp) ∧
    (pulledMessages s = [] → handleMessages s = s) := by
  refine ⟨fun h => ?_, handleMessages_of_empty s⟩
  obtain ⟨calls, h1, -, h3, h4, h5, -⟩ := handleMessages_of_pulled s h
  have hc : ∀ e ∈ calls, ∃ p m o rs, e = Event.handleMessage p m o rs := by
    intro e he
    obtain ⟨m, handler, st, -, rfl⟩ := h3 e he
    exact ⟨_, _, _, _, rfl⟩
  refine ⟨h4, ?_, ?_, ?_, ?_, ?_, ?_, h5⟩
  · rw [h4, rearmedTransfers_length]
  · rw [h4]
    generalize s.nextTransfer = next
    induction s.transfersSetUp generalizing next with
    | nil => rfl
    | cons d rest ih => simp [rearmedTransfers_cons, ih]
  · rw [h4]; exact rearmedTransfers_nodup _ _
  · simp only [drainEffects, h1, List.drop_left, h4, List.filterMap_append,
      filterMap_map_none Event.submitted Event.cancelTransfer (fun _ => rfl),
      calls_read_none Event.submitted (fun _ _ _ _ => rfl) (fun _ => rfl) calls hc,
      filterMap_map_all Event.submitted Event.submitTransfer (fun _ => rfl)]
    simp [Event.submitted]
  · rw [h4]; exact rearmedTransfers_id_ge _ _
  · intro hold t ht hnew
    rw [h4] at hnew
    have h1 := rearmedTransfers_id_ge _ _ t hnew
    have h2 := hold t ht
    omega

theorem C3_drain_cycle_invariant_witness :
    pulledMessages scenarioState ≠ [] ∧
    (∀ t ∈ scenarioState.libusbTransfers, t.id < scenarioState.nextTransfer) ∧
    (handleMessages scenarioState).libusbTransfers =
      [{ id := 1, handle := 70, interface_number := 2, maxPacketSize := 64 }] ∧
    (∀ t ∈ scenarioState.libusbTransfers,
      t ∉ (handleMessages scenarioState).libusbTransfers) :=
  ⟨by decide, by decide,
   ((C3_drain_cycle_invariant scenarioState).1 (by decide)).1.trans (by decide),
   ((C3_drain_cycle_invariant scenarioState).1 (by decide)).2.2.2.2.2.2.1 (by decide)⟩

/-- C4. No transfer is outstanding while a handler runs.  The effects of a drain
cycle that pulled at least one message are, in this order: one cancel request
for each transfer that was outstanding at entry; the handler calls, each with
the outstanding set empty at the moment of the call and followed by the
publication of its responses; one submission for each transfer outstanding on
return; the summary line.  There is one handler call per routable message. -/
theorem C4_cancel_dispatch_rearm (s : State σ) (h : pulledMessages s ≠ []) :
    ∃ calls : List Event,
      drainEffects s =
        s.libusbTransfers.map Event.cancelTransfer ++ calls.flatMap callEffects ++
          (handleMessages s).libusbTransfers.map Event.submitTransfer ++
          [Event.log (LogLine.handled ((pulledMessages s).filter (routable s)).length
            (pulledMessages s).length)] ∧
      (∀ e ∈ calls, ∃ p m rs, e = Event.handleMessage p m [] rs) ∧
      calls.length = ((pulledMessages s).filter (routable s)).length ∧
      (∀ e ∈ drainEffects s, ∀ p m o rs, e = Event.handleMessage p m o rs → o = []) ∧
      (drainEffects s).filterMap Event.cancelled = s.libusbTransfers ∧
      (drainEffects s).filterMap Event.submitted = (handleMessages s).libusbTransfers := by
  obtain ⟨calls, h1, h2, h3, h4, -, -⟩ := handleMessages_of_pulled s h
  have hc : ∀ e ∈ calls, ∃ p m o rs, e = Event.handleMessage p m o rs := by
    intro e he
    obtain ⟨m, handler, st, -, rfl⟩ := h3 e he
    exact ⟨_, _, _, _, rfl⟩
  have hd : drainEffects s = s.libusbTransfers.map Event.cancelTransfer ++
      calls.flatMap callEffects ++
      (handleMessages s).libusbTransfers.map Event.submitTransfer ++
      [Event.log (LogLine.handled ((pulledMessages s).filter (routable s)).length
        (pulledMessages s).length)] := by
    simp only [drainEffects, h1, List.drop_left, h4]
  refine ⟨calls, hd, ?_, ?_, ?_, ?_, ?_⟩
  · intro e he
    obtain ⟨m, handler, st, -, rfl⟩ := h3 e he
    exact ⟨_, _, _, rfl⟩
  · have := congrArg List.length h2
    simpa using this
  · intro e he p m o rs hev
    rw [hd, hev] at he
    have hin := mem_calls_of_mem_drain _ _ _ _ _ _ _ _ he
    obtain ⟨m0, handler, st, -, he0⟩ := h3 _ hin
    injection he0 with e1 e2 e3 e4
  · rw [hd]
    simp only [List.filterMap_append,
      filterMap_map_all Event.cancelled Event.cancelTransfer (fun _ => rfl),
      calls_read_none Event.cancelled (fun _ _ _ _ => rfl) (fun _ => rfl) calls hc,
      filterMap_map_none Event.cancelled Event.submitTransfer (fun _ => rfl)]
    simp [Event.cancelled]
  · rw [hd]
    simp only [List.filterMap_append,
      filterMap_map_none Event.submitted Event.cancelTransfer (fun _ => rfl),
      calls_read_none Event.submitted (fun _ _ _ _ => rfl) (fun _ => rfl) calls hc,
      filterMap_map_all Event.submitted Event.submitTransfer (fun _ => rfl)]
    simp [Event.submitted]

theorem C4_cancel_dispatch_rearm_witness :
    pulledMessages scenarioState ≠ [] ∧
    ∃ calls : List Event,
      drainEffects scenarioState =
        scenarioState.libusbTransfers.map Event.cancelTransfer ++ calls.flatMap callEffects ++
          (handleMessages scenarioState).libusbTransfers.map Event.submitTransfer ++
          [Event.log (LogLine.handled
            ((pulledMessages scenarioState).filter (routable scenarioState)).length
            (pulledMessages scenarioState).length)] ∧
      (∀ e ∈ calls, ∃ p m rs, e = Event.handleMessage p m [] rs) :=
  ⟨by decide,
   (C4_cancel_dispatch_rearm scenarioState (by decide)).imp fun _ hx => ⟨hx.1, hx.2.1⟩⟩

/-! ## Initialization handshake -/

theorem sendInitKey_trace (T : Transport) (s : State σ) (handle : libusb_device_handle)
    (interface_number : Int) :
    ∃ tail : List Event,
      (sendInitKey T s handle interface_number).trace =
        s.trace ++ ([Event.log (LogLine.sendingInitKey interface_number),
          Event.interruptTransfer handle ((Int.lor interface_number LIBUSB_ENDPOINT_OUT) % 256)
            initKey 1000] ++ tail) ∧
      (tail = [] ∨ ∃ line, tail = [Event.log line]) := by
  unfold sendInitKey
  simp only [State.emit]
  split
  · exact ⟨[Event.log (LogLine.failedToSendKey interface_number
      (T.interrupt_transfer handle ((Int.lor interface_number LIBUSB_ENDPOINT_OUT) % 256)
        initKey 1000).1)], by simp, Or.inr ⟨_, rfl⟩⟩
  · split
    · exact ⟨[Event.log (LogLine.didNotSendAllOfKey interface_number
        (T.interrupt_transfer handle ((Int.lor interface_number LIBUSB_ENDPOINT_OUT) % 256)
          initKey 1000).2)], by simp, Or.inr ⟨_, rfl⟩⟩
    · exact ⟨[], by simp, Or.inl rfl⟩

/-- C8, as amended. Initialization handshake payload: for every device handle,
interface number, state and outcome of the transfer, sendInitKey issues exactly
one interrupt write, on the endpoint `interface_number | LIBUSB_ENDPOINT_OUT`
with a timeout of 1000 ms; its payload is the fixed sequence of ten bytes 0x02,
0xb0, 0x04 followed by seven zero bytes, whatever the handle and the interface
number are. -/
theorem C8_init_key_payload (T : Transport) (s : State σ) (handle : libusb_device_handle)
    (interface_number : Int) :
    (initKeyEffects T s handle interface_number).filterMap Event.interruptWrite =
      [(handle, (Int.lor interface_number LIBUSB_ENDPOINT_OUT) % 256, initKey, 1000)] ∧
    initKey.length = 10 ∧
    initKey.take 3 = [0x02, 0xb0, 0x04] ∧
    (∀ b ∈ initKey.drop 3, b = 0) := by
  refine ⟨?_, rfl, rfl, by decide⟩
  obtain ⟨tail, ht, hcase⟩ := sendInitKey_trace T s handle interface_number
  simp only [initKeyEffects, ht, List.drop_left]
  rcases hcase with h | ⟨line, h⟩ <;> subst h <;> rfl

theorem C8_init_key_payload_witness :
    (initKeyEffects (scriptedTransport 0) scenarioState 70 2).filterMap Event.interruptWrite =
      [(70, 2, [0x02, 0xb0, 0x04, 0, 0, 0, 0, 0, 0, 0], 1000)] :=
  (C8_init_key_payload (scriptedTransport 0) scenarioState 70 2).1.trans (by decide)

/-- C8, the claim as stated fails: in the one interrupt write that sendInitKey
issues (here for handle 70 and interface 2), the third byte of the payload is
0x04, so not every byte after the first two is zero. -/
theorem C8_counterexample :
    (initKeyEffects (scriptedTransport 0) scenarioState 70 2).filterMap Event.interruptWrite =
      [(70, 2, [0x02, 0xb0, 0x04, 0, 0, 0, 0, 0, 0, 0], 1000)] ∧
    ¬ (∀ w ∈ (initKeyEffects (scriptedTransport 0) scenarioState 70 2).filterMap
          Event.interruptWrite,
        w.2.2.1.length = 10 ∧ w.2.2.1.take 2 = [0x02, 0xb0] ∧ ∀ b ∈ w.2.2.1.drop 2, b = 0) := by
  decide

/-! ## Device detach -/

theorem handleProductDetach_unbound (s : State σ) (device : libusb_device)
    (descriptor : libusb_device_descriptor) (h : s.deviceInterfaceMap.lookup device = none) :
    handleProductDetach s device descriptor = s := by
  simp [handleProductDetach, h]

theorem handleProductDetach_bound (s : State σ) (device : libusb_device)
    (descriptor : libusb_device_descriptor) (pair : device_interface_pair)
    (h : s.deviceInterfaceMap.lookup device = some pair) :
    (handleProductDetach s device descriptor).deviceInterfaces = s.deviceInterfaces.erase pair ∧
    (handleProductDetach s device descriptor).deviceInterfaceMap =
      s.deviceInterfaceMap.erase device ∧
    (handleProductDetach s device descriptor).productHandlers = s.productHandlers ∧
    (handleProductDetach s device descriptor).handledProducts = s.handledProducts ∧
    (handleProductDetach s device descriptor).nextPair = s.nextPair ∧
    (handleProductDetach s device descriptor).claimCalls = s.claimCalls ∧
    (handleProductDetach s device descriptor).trace =
      s.trace ++ ([Event.log LogLine.handlingDeviceDetach] ++
        (match s.productHandlers.lookup descriptor.idProduct with
         | some _ => [Event.detachDevice descriptor.idProduct pair.deviceHandle]
         | none => []) ++
        cleanupEffects s pair ++ [Event.close pair.deviceHandle]) ∧
    (handleProductDetach s device descriptor).handlerState =
      (match s.productHandlers.lookup descriptor.idProduct with
       | some handler => Function.update s.handlerState descriptor.idProduct
           (handler.detachDevice (s.handlerState descriptor.idProduct) pair.deviceHandle)
       | none => s.handlerState) := by
  simp only [handleProductDetach, h, State.emit, cleanupDevice, cleanupEffects]
  cases s.productHandlers.lookup descriptor.idProduct <;> simp

theorem handleProductDetach_frame (s : State σ) (device : libusb_device)
    (descriptor : libusb_device_descriptor) :
    (handleProductDetach s device descriptor).productHandlers = s.productHandlers ∧
    (handleProductDetach s device descriptor).handledProducts = s.handledProducts ∧
    (handleProductDetach s device descriptor).nextPair = s.nextPair ∧
    (handleProductDetach s device descriptor).claimCalls = s.claimCalls := by
  cases h : s.deviceInterfaceMap.lookup device with
  | none => simp [handleProductDetach_unbound s device descriptor h]
  | some pair =>
    obtain ⟨-, -, h3, h4, h5, h6, -, -⟩ := handleProductDetach_bound s device descriptor pair h
    exact ⟨h3, h4, h5, h6⟩

theorem handleProductDetach_lookup (s : State σ) (device : libusb_device)
    (descriptor : libusb_device_descriptor) :
    (handleProductDetach s device descriptor).deviceInterfaceMap.lookup device = none := by
  cases h : s.deviceInterfaceMap.lookup device with
  | none => rw [handleProductDetach_unbound s device descriptor h]; exact h
  | some pair =>
    rw [(handleProductDetach_bound s device descriptor pair h).2.1]
    exact AList.lookup_erase device _

theorem cleanupEffects_read (s : State σ) (pair : device_interface_pair) :
    (cleanupEffects s pair).filterMap Event.hooked = [] ∧
    (cleanupEffects s pair).filterMap Event.closed = [] := by
  simp only [cleanupEffects, List.filterMap_append,
    filterMap_map_none Event.hooked Event.cancelTransfer (fun _ => rfl),
    filterMap_map_none Event.closed Event.cancelTransfer (fun _ => rfl)]
  exact ⟨rfl, rfl⟩

/-- C6. Detach idempotence: detaching a device identity that has no entry in the
identity lookup returns the object as it was (both views, the outstanding
transfers, the setup records, the handlers and the effect trace: no hook, no
release, no close); and detaching the same identity twice in a row gives what
detaching it once gives. -/
theorem C6_detach_idempotent (s : State σ) (device : libusb_device)
    (descriptor : libusb_device_descriptor) :
    (s.deviceInterfaceMap.lookup device = none →
      handleProductDetach s device descriptor = s) ∧
    handleProductDetach (handleProductDetach s device descriptor) device descriptor =
      handleProductDetach s device descriptor :=
  ⟨handleProductDetach_unbound s device descriptor,
   handleProductDetach_unbound _ device descriptor
     (handleProductDetach_lookup s device descriptor)⟩

theorem C6_detach_idempotent_witness :
    scenarioState.deviceInterfaceMap.lookup 8 = none ∧
    handleProductDetach scenarioState 8 { idVendor := getVendorId, idProduct := productB } =
      scenarioState :=
  ⟨by decide,
   (C6_detach_idempotent scenarioState 8 { idVendor := getVendorId, idProduct := productB }).1
     (by decide)⟩

/-- C10. Detach of a bound device.  When the product identifier of the
descriptor is a key of the registry, the effects are: the log line, one call of
the detach hook of the handler under that key with the handle of the binding,
then the cleanup of the binding, then the closing of the handle.  When it is not
a key, the effects are the same without the hook and no handler changes.  In
both cases the handle is closed exactly once, at the end; on return the device
has no entry in the lookup and the entries of all other devices are as before;
the flat collection is the old one with the binding erased, so every other
binding occurs in it as often as before; and in every state in which the lookup
is within the flat collection (every state that hotplug calls reach from the
empty active set) the binding itself is absent on return from the flat
collection and from the lookup. -/
theorem C10_detach_bound_device (s : State σ) (device : libusb_device)
    (descriptor : libusb_device_descriptor) (pair : device_interface_pair)
    (h : s.deviceInterfaceMap.lookup device = some pair) :
    (∀ handler, s.productHandlers.lookup descriptor.idProduct = some handler →
      detachEffects s device descriptor =
        [Event.log LogLine.handlingDeviceDetach,
         Event.detachDevice descriptor.idProduct pair.deviceHandle] ++
        cleanupEffects s pair ++ [Event.close pair.deviceHandle] ∧
      (detachEffects s device descriptor).filterMap Event.hooked =
        [(descriptor.idProduct, pair.deviceHandle)] ∧
      (handleProductDetach s device descriptor).handlerState descriptor.idProduct =
        handler.detachDevice (s.handlerState descriptor.idProduct) pair.deviceHandle) ∧
    (s.productHandlers.lookup descriptor.idProduct = none →
      detachEffects s device descriptor =
        [Event.log LogLine.handlingDeviceDetach] ++
        cleanupEffects s pair ++ [Event.close pair.deviceHandle] ∧
      (detachEffects s device descriptor).filterMap Event.hooked = [] ∧
      (handleProductDetach s device descriptor).handlerState = s.handlerState) ∧
    (detachEffects s device descriptor).filterMap Event.closed = [pair.deviceHandle] ∧
    (handleProductDetach s device descriptor).deviceInterfaceMap.lookup device = none ∧
    (∀ d, d ≠ device →
      (handleProductDetach s device descriptor).deviceInterfaceMap.lookup d =
        s.deviceInterfaceMap.lookup d) ∧
    (handleProductDetach s device descriptor).deviceInterfaces = s.deviceInterfaces.erase pair ∧
    (∀ b, b ≠ pair →
      ((handleProductDetach s device descriptor).deviceInterfaces.count b =
        s.deviceInterfaces.count b)) ∧
    (LookupWithinFlat s →
      pair ∉ (handleProductDetach s device descriptor).deviceInterfaces ∧
      ∀ d, (handleProductDetach s device descriptor).deviceInterfaceMap.lookup d ≠ some pair) := by
  obtain ⟨h1, h2, -, -, -, -, h7, h8⟩ := handleProductDetach_bound s device descriptor pair h
  obtain ⟨c1, c2⟩ := cleanupEffects_read s pair
  have hd : detachEffects s device descriptor =
      [Event.log LogLine.handlingDeviceDetach] ++
        (match s.productHandlers.lookup descriptor.idProduct with
         | some _ => [Event.detachDevice descriptor.idProduct pair.deviceHandle]
         | none => []) ++
        cleanupEffects s pair ++ [Event.close pair.deviceHandle] := by
    simp only [detachEffects, h7, List.drop_left]
  refine ⟨?_, ?_, ?_, ?_, ?_, h1, ?_, ?_⟩
  · intro handler hl
    rw [hd, h8, hl]
    refine ⟨by simp, ?_, by simp⟩
    simp [List.filterMap_append, c1, List.filterMap_cons, Event.hooked]
  · intro hl
    rw [hd, h8, hl]
    refine ⟨by simp, ?_, rfl⟩
    simp [List.filterMap_append, c1, List.filterMap_cons, Event.hooked]
  · rw [hd]
    cases s.productHandlers.lookup descriptor.idProduct <;>
      simp [List.filterMap_append, c2, List.filterMap_cons, Event.closed]
  · exact handleProductDetach_lookup s device descriptor
  · intro d hne
    rw [h2]
    exact AList.lookup_erase_ne hne
  · intro b hne
    rw [h1]
    exact List.count_erase_of_ne hne _
  · intro hwf
    refine ⟨?_, ?_⟩
    · rw [h1]
      exact fun hmem => ((List.Nodup.mem_erase_iff hwf.1).1 hmem).1 rfl
    · intro d hd2
      rw [h2] at hd2
      by_cases hdd : d = device
      · subst hdd
        rw [AList.lookup_erase] at hd2
        cases hd2
      · rw [AList.lookup_erase_ne hdd] at hd2
        exact hdd (hwf.2.2 d device pair hd2 h)

theorem C10_detach_bound_device_witness :
    scenarioState.deviceInterfaceMap.lookup 7 = some bindingA ∧
    LookupWithinFlat scenarioState ∧
    (detachEffects scenarioState 7 descriptorA).filterMap Event.hooked = [(productA, 70)] ∧
    (detachEffects scenarioState 7 descriptorA).filterMap Event.closed = [70] ∧
    (handleProductDetach scenarioState 7 descriptorA).deviceInterfaceMap.lookup 7 = none ∧
    bindingA ∉ (handleProductDetach scenarioState 7 descriptorA).deviceInterfaces := by
  have hentry : ∀ d b, scenarioState.deviceInterfaceMap.lookup d = some b →
      d = 7 ∧ b = bindingA := by
    intro d b hd
    have hmem : (⟨d, b⟩ : Sigma fun _ : libusb_device => device_interface_pair) ∈
        scenarioState.deviceInterfaceMap.entries := AList.mem_lookup_iff.1 hd
    have hentries : scenarioState.deviceInterfaceMap.entries = [⟨7, bindingA⟩] := rfl
    rw [hentries, List.mem_singleton] at hmem
    injection hmem with h1 h2
    exact ⟨h1, h2⟩
  have hwf : LookupWithinFlat scenarioState := by
    refine ⟨by decide, ?_, ?_⟩
    · intro d b hd
      rw [(hentry d b hd).2]
      exact List.mem_singleton.2 rfl
    · intro d1 d2 b h1 h2
      rw [(hentry d1 b h1).1, (hentry d2 b h2).1]
  have h := C10_detach_bound_device scenarioState 7 descriptorA bindingA (by decide)
  exact ⟨by decide, hwf, (h.1 countingHandler rfl).2.1, h.2.2.1, h.2.2.2.1,
    (h.2.2.2.2.2.2.2 hwf).1⟩

/-! ## Device attach: the claim loop -/

theorem detach_no_attach_step (s : State σ) (device : libusb_device)
    (descriptor : libusb_device_descriptor) :
    ∃ added : List Event,
      (handleProductDetach s device descriptor).trace = s.trace ++ added ∧
      added.filter Event.isAttachStep = [] := by
  cases h : s.deviceInterfaceMap.lookup device with
  | none => exact ⟨[], by simp [handleProductDetach_unbound s device descriptor h]⟩
  | some pair =>
    refine ⟨_, (handleProductDetach_bound s device descriptor pair h).2.2.2.2.2.2.1, ?_⟩
    have hc : (cleanupEffects s pair).filter Event.isAttachStep = [] := by
      simp only [cleanupEffects, List.filter_append, List.filter_map]
      simp [List.filter_eq_nil_iff, Event.isAttachStep]
    cases s.productHandlers.lookup descriptor.idProduct <;>
      simp [List.filter_append, hc, List.filter_cons, Event.isAttachStep]

theorem failedAttempt_spec (s : State σ) (device : libusb_device)
    (descriptor : libusb_device_descriptor) (attempt : Nat) :
    (∃ added : List Event,
      (failedAttempt s device descriptor attempt).trace = s.trace ++ added ∧
      added.filter Event.isAttachStep =
        [Event.claimDevice device descriptor.idProduct,
         Event.log (LogLine.couldNotClaim attempt), Event.sleepSeconds 1]) ∧
    (failedAttempt s device descriptor attempt).claimCalls = s.claimCalls + 1 ∧
    (failedAttempt s device descriptor attempt).nextPair = s.nextPair ∧
    (failedAttempt s device descriptor attempt).productHandlers = s.productHandlers ∧
    (failedAttempt s device descriptor attempt).handledProducts = s.handledProducts ∧
    (failedAttempt s device descriptor attempt).deviceInterfaceMap.lookup device = none ∧
    (∀ b ∈ (failedAttempt s device descriptor attempt).deviceInterfaces,
      b ∈ s.deviceInterfaces) := by
  obtain ⟨added, ht, hf⟩ :=
    detach_no_attach_step (failedClaim s device descriptor attempt) device descriptor
  obtain ⟨f1, f2, f3, f4⟩ :=
    handleProductDetach_frame (failedClaim s device descriptor attempt) device descriptor
  have hl := handleProductDetach_lookup (failedClaim s device descriptor attempt) device descriptor
  refine ⟨⟨[Event.claimDevice device descriptor.idProduct,
      Event.log (LogLine.couldNotClaim attempt)] ++ added ++ [Event.sleepSeconds 1], ?_, ?_⟩,
    f4, f3, f1, f2, hl, ?_⟩
  · simp only [failedAttempt, State.emit, ht]
    simp [failedClaim, List.append_assoc]
  · simp [List.filter_append, hf, List.filter_cons, Event.isAttachStep]
  · intro b hb
    have hb2 : b ∈ (handleProductDetach (failedClaim s device descriptor attempt) device
        descriptor).deviceInterfaces := hb
    cases h : (failedClaim s device descriptor attempt).deviceInterfaceMap.lookup device with
    | none =>
      rw [handleProductDetach_unbound _ device descriptor h] at hb2
      exact hb2
    | some pair =>
      rw [(handleProductDetach_bound _ device descriptor pair h).1] at hb2
      exact List.mem_of_mem_erase hb2

theorem failedSteps_succ (device : libusb_device) (descriptor : libusb_device_descriptor)
    (attempt k : Nat) :
    failedSteps device descriptor attempt (k + 1) =
      [Event.claimDevice device descriptor.idProduct,
       Event.log (LogLine.couldNotClaim attempt), Event.sleepSeconds 1] ++
      failedSteps device descriptor (attempt + 1) k := by
  simp [failedSteps, List.range'_succ]

theorem failedAttempts_spec (device : libusb_device) (descriptor : libusb_device_descriptor)
    (k : Nat) : ∀ (attempt : Nat) (s : State σ),
    (∃ added : List Event,
      (failedAttempts device descriptor k attempt s).trace = s.trace ++ added ∧
      added.filter Event.isAttachStep = failedSteps device descriptor attempt k) ∧
    (failedAttempts device descriptor k attempt s).claimCalls = s.claimCalls + k ∧
    (failedAttempts device descriptor k attempt s).nextPair = s.nextPair ∧
    (failedAttempts device descriptor k attempt s).productHandlers = s.productHandlers ∧
    (failedAttempts device descriptor k attempt s).handledProducts = s.handledProducts ∧
    (0 < k →
      (failedAttempts device descriptor k attempt s).deviceInterfaceMap.lookup device = none) ∧
    (∀ b ∈ (failedAttempts device descriptor k attempt s).deviceInterfaces,
      b ∈ s.deviceInterfaces) := by
  induction k with
  | zero =>
    intro attempt s
    exact ⟨⟨[], by simp [failedAttempts, failedSteps]⟩, rfl, rfl, rfl, rfl,
      fun h => absurd h (Nat.lt_irrefl 0), fun b hb => hb⟩
  | succ k ih =>
    intro attempt s
    obtain ⟨⟨a1, t1, s1⟩, c1, n1, p1, q1, l1, m1⟩ := failedAttempt_spec s device descriptor attempt
    obtain ⟨⟨a2, t2, s2⟩, c2, n2, p2, q2, l2, m2⟩ :=
      ih (attempt + 1) (failedAttempt s device descriptor attempt)
    simp only [failedAttempts]
    refine ⟨⟨a1 ++ a2, ?_, ?_⟩, ?_, ?_, ?_, ?_, ?_, ?_⟩
    · rw [t2, t1, List.append_assoc]
    · rw [List.filter_append, s1, s2, failedSteps_succ]
    · rw [c2, c1]; omega
    · rw [n2, n1]
    · rw [p2, p1]
    · rw [q2, q1]
    · intro _
      rcases Nat.eq_zero_or_pos k with hk | hk
      · subst hk
        exact l1
      · exact l2 hk
    · exact fun b hb => m1 b (m2 b hb)

theorem claimLoop_failed (T : Transport) (device : libusb_device)
    (descriptor : libusb_device_descriptor) (k : Nat) :
    ∀ (remaining attempt : Nat) (s : State σ),
      (∀ i, i < k → T.claim (s.claimCalls + i) device descriptor = none) →
      claimLoop T device descriptor (remaining + k) attempt s =
        claimLoop T device descriptor remaining (attempt + k)
          (failedAttempts device descriptor k attempt s) := by
  induction k with
  | zero => intro remaining attempt s _; rfl
  | succ k ih =>
    intro remaining attempt s hfail
    have h0 : T.claim s.claimCalls device descriptor = none := by
      simpa using hfail 0 (Nat.succ_pos k)
    have hstep : claimLoop T device descriptor (remaining + k + 1) attempt s =
        claimLoop T device descriptor (remaining + k) (attempt + 1)
          (failedAttempt s device descriptor attempt) := by
      simp only [claimLoop, claimDevice, h0, failedAttempt, failedClaim, State.emit,
        List.append_assoc, List.singleton_append]
    have hc := (failedAttempt_spec s device descriptor attempt).2.1
    rw [← Nat.add_assoc, hstep, ih remaining (attempt + 1) _ (fun i hi => by
      rw [hc, Nat.add_assoc, Nat.add_comm 1 i]
      exact hfail (i + 1) (Nat.succ_lt_succ hi))]
    simp only [failedAttempts, Nat.add_assoc, Nat.add_comm 1 k]

theorem claimLoop_success (T : Transport) (device : libusb_device)
    (descriptor : libusb_device_descriptor) (remaining attempt : Nat) (s : State σ)
    (r : claim_result) (h : T.claim s.claimCalls device descriptor = some r) :
    claimLoop T device descriptor (remaining + 1) attempt s =
      (some (claimedPair s device descriptor r), successfulAttempt s device descriptor) := by
  simp only [claimLoop, claimDevice, h, claimedPair, successfulAttempt]

theorem failedSteps_count (device : libusb_device) (descriptor : libusb_device_descriptor)
    (k : Nat) : ∀ attempt : Nat,
    (failedSteps device descriptor attempt k).count
        (Event.claimDevice device descriptor.idProduct) = k ∧
    (failedSteps device descriptor attempt k).count (Event.sleepSeconds 1) = k := by
  induction k with
  | zero => intro attempt; simp [failedSteps]
  | succ k ih =>
    intro attempt
    obtain ⟨h1, h2⟩ := ih (attempt + 1)
    rw [failedSteps_succ]
    refine ⟨?_, ?_⟩
    · simp [List.count_cons, h1]
    · simp [List.count_cons, h2]

/-- C5. Claim retry bound, for an attach of a supported product identifier whose
first `k` claim attempts fail.  If `k < 5` and the next attempt succeeds, attach
returns success and is exactly: `k` failed rounds (a failed claim attempt, one
detach/cleanup pass for the same device identity, a one-second wait), then the
successful attempt, then the registration of the new binding in both views; so
it makes `k + 1` claim attempts and `k` one-second waits, all before the
successful attempt, and the new binding is the lookup's entry for the device
and a member of the flat collection.  If `k >= 5`, attach returns failure after
exactly 5 failed rounds: 5 claim attempts and no more, no entry for the device
in the lookup, and no binding in the flat collection that was not there before. -/
theorem C5_claim_retry_bound (T : Transport) (s : State σ) (device : libusb_device)
    (descriptor : libusb_device_descriptor) (handler : tablet_handler σ) (k : Nat)
    (hprod : descriptor.idProduct ∈ s.handledProducts)
    (hreg : s.productHandlers.lookup descriptor.idProduct = some handler)
    (hfail : ∀ i, i < k → T.claim (s.claimCalls + i) device descriptor = none) :
    (k < 5 → ∀ r, T.claim (s.claimCalls + k) device descriptor = some r →
      ∃ s' pair,
        handleProductAttach T s device descriptor = some (true, s') ∧
        pair = claimedPair (failedAttempts device descriptor k 0 (attachStart s handler descriptor))
          device descriptor r ∧
        s' = registerPair
          (successfulAttempt
            (failedAttempts device descriptor k 0 (attachStart s handler descriptor))
            device descriptor)
          device pair ∧
        s'.claimCalls = s.claimCalls + (k + 1) ∧
        (s'.trace.drop s.trace.length).filter Event.isAttachStep =
          failedSteps device descriptor 0 k ++
            [Event.claimDevice device descriptor.idProduct] ∧
        (s'.trace.drop s.trace.length).count
          (Event.claimDevice device descriptor.idProduct) = k + 1 ∧
        (s'.trace.drop s.trace.length).count (Event.sleepSeconds 1) = k ∧
        s'.deviceInterfaceMap.lookup device = some pair ∧
        pair ∈ s'.deviceInterfaces ∧
        pair.addr = s.nextPair ∧ pair.device = device ∧
        pair.productId = descriptor.idProduct) ∧
    (5 ≤ k →
      ∃ s',
        handleProductAttach T s device descriptor = some (false, s') ∧
        s' = (failedAttempts device descriptor 5 0 (attachStart s handler descriptor)).emit
          (Event.log LogLine.givingUp) ∧
        s'.claimCalls = s.claimCalls + 5 ∧
        (s'.trace.drop s.trace.length).filter Event.isAttachStep =
          failedSteps device descriptor 0 5 ∧
        (s'.trace.drop s.trace.length).count
          (Event.claimDevice device descriptor.idProduct) = 5 ∧
        (s'.trace.drop s.trace.length).count (Event.sleepSeconds 1) = 5 ∧
        s'.deviceInterfaceMap.lookup device = none ∧
        (∀ b ∈ s'.deviceInterfaces, b ∈ s.deviceInterfaces)) := by
  have count_filter : ∀ (l : List Event) (e : Event), e.isAttachStep = true →
      l.count e = (l.filter Event.isAttachStep).count e := by
    intro l e he
    induction l with
    | nil => rfl
    | cons x rest ih =>
      by_cases hx : x.isAttachStep = true
      · simp [List.filter_cons, hx, List.count_cons, ih]
      · have hne : ¬ (x = e) := fun h => hx (h ▸ he)
        simp [List.filter_cons, hx, List.count_cons, ih, hne]
  have hstart : (attachStart s handler descriptor).claimCalls = s.claimCalls := rfl
  refine ⟨fun hk r hr => ?_, fun hk => ?_⟩
  · obtain ⟨⟨added, ht, hs⟩, c, n, -, -, -, -⟩ :=
      failedAttempts_spec device descriptor k 0 (attachStart s handler descriptor)
    have hloop : claimLoop T device descriptor maxRetries 0 (attachStart s handler descriptor) =
        (some (claimedPair (failedAttempts device descriptor k 0
            (attachStart s handler descriptor)) device descriptor r),
          successfulAttempt (failedAttempts device descriptor k 0
            (attachStart s handler descriptor)) device descriptor) := by
      have h5 : maxRetries = (4 - k + 1) + k := by simp only [maxRetries]; omega
      rw [h5, claimLoop_failed T device descriptor k (4 - k + 1) 0
        (attachStart s handler descriptor) hfail]
      exact claimLoop_success T device descriptor (4 - k) (0 + k) _ r (by rw [c, hstart]; exact hr)
    have hattach : handleProductAttach T s device descriptor =
        some (true, registerPair
          (successfulAttempt (failedAttempts device descriptor k 0
            (attachStart s handler descriptor)) device descriptor) device
          (claimedPair (failedAttempts device descriptor k 0
            (attachStart s handler descriptor)) device descriptor r)) := by
      have := hloop
      simp only [attachStart] at this
      simp only [handleProductAttach, hprod, if_true, hreg, this, attachStart]
    have htrace : (registerPair
          (successfulAttempt (failedAttempts device descriptor k 0
            (attachStart s handler descriptor)) device descriptor) device
          (claimedPair (failedAttempts device descriptor k 0
            (attachStart s handler descriptor)) device descriptor r)).trace.drop s.trace.length =
        [Event.log (LogLine.handling
          (handler.getProductName (s.handlerState descriptor.idProduct) descriptor.idProduct))] ++
        added ++ [Event.claimDevice device descriptor.idProduct] := by
      simp only [registerPair, successfulAttempt]
      rw [ht]
      simp only [attachStart, State.emit, List.append_assoc, List.drop_left]
    have hfilter : ((registerPair
          (successfulAttempt (failedAttempts device descriptor k 0
            (attachStart s handler descriptor)) device descriptor) device
          (claimedPair (failedAttempts device descriptor k 0
            (attachStart s handler descriptor)) device descriptor r)).trace.drop
            s.trace.length).filter Event.isAttachStep =
        failedSteps device descriptor 0 k ++ [Event.claimDevice device descriptor.idProduct] := by
      rw [htrace]
      simp [List.filter_append, hs, List.filter_cons, Event.isAttachStep]
    obtain ⟨k1, k2⟩ := failedSteps_count device descriptor k 0
    refine ⟨_, _, hattach, rfl, rfl, ?_, hfilter, ?_, ?_, ?_, ?_, ?_, rfl, rfl⟩
    · simp only [registerPair, successfulAttempt, c, hstart]
      omega
    · rw [count_filter _ (Event.claimDevice device descriptor.idProduct) rfl, hfilter,
        List.count_append, k1]
      simp
    · rw [count_filter _ (Event.sleepSeconds 1) rfl, hfilter, List.count_append, k2]
      simp
    · simp only [registerPair]
      exact AList.lookup_insert _
    · simp [registerPair]
    · simp only [claimedPair, n]
      rfl
  · obtain ⟨⟨added, ht, hs⟩, c, -, -, -, l, m⟩ :=
      failedAttempts_spec device descriptor 5 0 (attachStart s handler descriptor)
    have hloop : claimLoop T device descriptor maxRetries 0 (attachStart s handler descriptor) =
        (none, failedAttempts device descriptor 5 0 (attachStart s handler descriptor)) := by
      have h5 : maxRetries = 0 + 5 := rfl
      rw [h5, claimLoop_failed T device descriptor 5 0 0 (attachStart s handler descriptor)
        (fun i hi => hfail i (Nat.lt_of_lt_of_le hi hk))]
      rfl
    have hattach : handleProductAttach T s device descriptor =
        some (false, (failedAttempts device descriptor 5 0
          (attachStart s handler descriptor)).emit (Event.log LogLine.givingUp)) := by
      have := hloop
      simp only [attachStart] at this
      simp only [handleProductAttach, hprod, if_true, hreg, this, attachStart]
    have htrace : ((failedAttempts device descriptor 5 0
          (attachStart s handler descriptor)).emit (Event.log LogLine.givingUp)).trace.drop
          s.trace.length =
        [Event.log (LogLine.handling
          (handler.getProductName (s.handlerState descriptor.idProduct) descriptor.idProduct))] ++
        added ++ [Event.log LogLine.givingUp] := by
      simp only [State.emit]
      rw [ht]
      simp only [attachStart, State.emit, List.append_assoc, List.drop_left]
    have hfilter : (((failedAttempts device descriptor 5 0
          (attachStart s handler descriptor)).emit (Event.log LogLine.givingUp)).trace.drop
          s.trace.length).filter Event.isAttachStep = failedSteps device descriptor 0 5 := by
      rw [htrace]
      simp [List.filter_append, hs, List.filter_cons, Event.isAttachStep]
    obtain ⟨k1, k2⟩ := failedSteps_count device descriptor 5 0
    refine ⟨_, hattach, rfl, ?_, hfilter, ?_, ?_, ?_, ?_⟩
    · simp only [State.emit, c, hstart]
    · rw [count_filter _ (Event.claimDevice device descriptor.idProduct) rfl, hfilter, k1]
    · rw [count_filter _ (Event.sleepSeconds 1) rfl, hfilter, k2]
    · exact l (by decide)
    · intro b hb
      simp only [State.emit] at hb
      exact m b hb

theorem C5_claim_retry_bound_witness :
    descriptorA.idProduct ∈ scenarioState.handledProducts ∧
    (∀ i, i < 2 →
      (scriptedTransport 3).claim (scenarioState.claimCalls + i) 8 descriptorA = none) ∧
    (handleProductAttach (scriptedTransport 3) scenarioState 8 descriptorA).map Prod.fst =
      some true ∧
    (handleProductAttach (scriptedTransport 9) scenarioState 8 descriptorA).map Prod.fst =
      some false := by
  refine ⟨by decide, by decide, ?_, ?_⟩
  · obtain ⟨s1, pair, h, -⟩ :=
      (C5_claim_retry_bound (scriptedTransport 3) scenarioState 8 descriptorA countingHandler 2
        (by decide) rfl (by decide)).1 (by decide) _ rfl
    rw [h]
    rfl
  · obtain ⟨s1, h, -⟩ :=
      (C5_claim_retry_bound (scriptedTransport 9) scenarioState 8 descriptorA countingHandler 5
        (by decide) rfl (by decide)).2 (by decide)
    rw [h]
    rfl

/-! ## Active-set consistency -/

theorem viewsAgree_of (s : State σ) (h1 : LookupWithinFlat s) (h2 : FlatWithinLookup s) :
    ViewsAgree s := by
  intro b
  refine ⟨⟨fun ⟨d, hd⟩ => h1.2.1 d b hd, fun hb => h2 b hb⟩, fun hb => ?_⟩
  exact List.count_eq_one_of_mem h1.1 hb

theorem detach_lookupWithinFlat (s : State σ) (device : libusb_device)
    (descriptor : libusb_device_descriptor) (h : LookupWithinFlat s) :
    LookupWithinFlat (handleProductDetach s device descriptor) := by
  cases hl : s.deviceInterfaceMap.lookup device with
  | none => rw [handleProductDetach_unbound s device descriptor hl]; exact h
  | some pair =>
    obtain ⟨e1, e2, -⟩ := handleProductDetach_bound s device descriptor pair hl
    obtain ⟨hnd, hsub, hinj⟩ := h
    have key : ∀ d b, (s.deviceInterfaceMap.erase device).lookup d = some b →
        d ≠ device ∧ s.deviceInterfaceMap.lookup d = some b := by
      intro d b hd
      by_cases hdd : d = device
      · subst hdd
        rw [AList.lookup_erase] at hd
        cases hd
      · rw [AList.lookup_erase_ne hdd] at hd
        exact ⟨hdd, hd⟩
    refine ⟨?_, ?_, ?_⟩
    · rw [e1]; exact hnd.erase pair
    · intro d b hd
      rw [e2] at hd
      obtain ⟨hne, hd2⟩ := key d b hd
      rw [e1]
      refine (List.mem_erase_of_ne ?_).2 (hsub d b hd2)
      intro hbp
      subst hbp
      exact hne (hinj d device b hd2 hl)
    · intro d1 d2 b h1 h2
      rw [e2] at h1 h2
      exact hinj d1 d2 b (key d1 b h1).2 (key d2 b h2).2

theorem detach_flat_subset (s : State σ) (device : libusb_device)
    (descriptor : libusb_device_descriptor) :
    ∀ b ∈ (handleProductDetach s device descriptor).deviceInterfaces, b ∈ s.deviceInterfaces := by
  intro b hb
  cases hl : s.deviceInterfaceMap.lookup device with
  | none => rw [handleProductDetach_unbound s device descriptor hl] at hb; exact hb
  | some pair =>
    rw [(handleProductDetach_bound s device descriptor pair hl).1] at hb
    exact List.mem_of_mem_erase hb

theorem detach_flatWithinLookup (s : State σ) (device : libusb_device)
    (descriptor : libusb_device_descriptor) (h : LookupWithinFlat s)
    (hf : FlatWithinLookup s) :
    FlatWithinLookup (handleProductDetach s device descriptor) := by
  cases hl : s.deviceInterfaceMap.lookup device with
  | none => rw [handleProductDetach_unbound s device descriptor hl]; exact hf
  | some pair =>
    obtain ⟨e1, e2, -⟩ := handleProductDetach_bound s device descriptor pair hl
    intro b hb
    rw [e1] at hb
    obtain ⟨hne, hmem⟩ := (List.Nodup.mem_erase_iff h.1).1 hb
    obtain ⟨d, hd⟩ := hf b hmem
    refine ⟨d, ?_⟩
    rw [e2]
    have hdd : d ≠ device := by
      intro hdd
      subst hdd
      rw [hl] at hd
      injection hd with hd
      exact hne hd.symm
    rw [AList.lookup_erase_ne hdd]
    exact hd

theorem failedAttempt_activeSet (s : State σ) (device : libusb_device)
    (descriptor : libusb_device_descriptor) (attempt : Nat) (h : ActiveSetOK s) :
    ActiveSetOK (failedAttempt s device descriptor attempt) ∧
    (FlatWithinLookup s → FlatWithinLookup (failedAttempt s device descriptor attempt)) := by
  have h0 : LookupWithinFlat (failedClaim s device descriptor attempt) := h.1
  refine ⟨⟨detach_lookupWithinFlat _ device descriptor h0, ?_⟩, fun hf => ?_⟩
  · intro b hb
    have hn := (failedAttempt_spec s device descriptor attempt).2.2.1
    rw [hn]
    exact h.2 b (detach_flat_subset (failedClaim s device descriptor attempt) device descriptor
      b hb)
  · exact detach_flatWithinLookup (failedClaim s device descriptor attempt) device descriptor
      h0 hf

theorem failedAttempts_activeSet (device : libusb_device)
    (descriptor : libusb_device_descriptor) (k : Nat) :
    ∀ (attempt : Nat) (s : State σ), ActiveSetOK s →
      ActiveSetOK (failedAttempts device descriptor k attempt s) ∧
      (FlatWithinLookup s →
        FlatWithinLookup (failedAttempts device descriptor k attempt s)) := by
  induction k with
  | zero => intro attempt s h; exact ⟨h, fun hf => hf⟩
  | succ k ih =>
    intro attempt s h
    obtain ⟨a1, a2⟩ := failedAttempt_activeSet s device descriptor attempt h
    obtain ⟨b1, b2⟩ := ih (attempt + 1) _ a1
    exact ⟨b1, fun hf => b2 (a2 hf)⟩

theorem register_activeSet (s : State σ) (device : libusb_device)
    (descriptor : libusb_device_descriptor) (r : claim_result) (h : ActiveSetOK s) :
    ActiveSetOK (registerPair (successfulAttempt s device descriptor) device
      (claimedPair s device descriptor r)) ∧
    (FlatWithinLookup s → s.deviceInterfaceMap.lookup device = none →
      FlatWithinLookup (registerPair (successfulAttempt s device descriptor) device
        (claimedPair s device descriptor r))) := by
  obtain ⟨⟨hnd, hsub, hinj⟩, halloc⟩ := h
  have hfresh : claimedPair s device descriptor r ∉ s.deviceInterfaces := by
    intro hmem
    have := halloc _ hmem
    simp [claimedPair] at this
  have key : ∀ d b, (s.deviceInterfaceMap.insert device
        (claimedPair s device descriptor r)).lookup d = some b →
      (d = device ∧ b = claimedPair s device descriptor r) ∨
      (d ≠ device ∧ s.deviceInterfaceMap.lookup d = some b) := by
    intro d b hd
    by_cases hdd : d = device
    · subst hdd
      rw [AList.lookup_insert] at hd
      injection hd with hd
      exact Or.inl ⟨rfl, hd.symm⟩
    · rw [AList.lookup_insert_ne hdd] at hd
      exact Or.inr ⟨hdd, hd⟩
  refine ⟨⟨⟨?_, ?_, ?_⟩, ?_⟩, ?_⟩
  · simp only [registerPair, successfulAttempt]
    exact List.Nodup.append hnd (List.nodup_singleton _)
      (by
        intro b hb1 hb2
        rw [List.mem_singleton] at hb2
        subst hb2
        exact hfresh hb1)
  · intro d b hd
    simp only [registerPair, successfulAttempt] at hd ⊢
    rcases key d b hd with ⟨-, hb⟩ | ⟨-, hl⟩
    · simp [hb]
    · exact List.mem_append_left _ (hsub d b hl)
  · intro d1 d2 b h1 h2
    simp only [registerPair, successfulAttempt] at h1 h2
    rcases key d1 b h1 with ⟨e1, hb1⟩ | ⟨n1, hl1⟩ <;>
      rcases key d2 b h2 with ⟨e2, hb2⟩ | ⟨n2, hl2⟩
    · rw [e1, e2]
    · subst hb1
      exact absurd (hsub d2 _ hl2) hfresh
    · subst hb2
      exact absurd (hsub d1 _ hl1) hfresh
    · exact hinj d1 d2 b hl1 hl2
  · intro b hb
    simp only [registerPair, successfulAttempt] at hb ⊢
    rcases List.mem_append.1 hb with hb | hb
    · exact Nat.lt_succ_of_lt (halloc b hb)
    · rw [List.mem_singleton] at hb
      subst hb
      simp [claimedPair]
  · intro hf hnone b hb
    simp only [registerPair, successfulAttempt] at hb ⊢
    rcases List.mem_append.1 hb with hb | hb
    · obtain ⟨d, hd⟩ := hf b hb
      refine ⟨d, ?_⟩
      have hdd : d ≠ device := by
        intro hdd
        subst hdd
        rw [hnone] at hd
        cases hd
      rw [AList.lookup_insert_ne hdd]
      exact hd
    · rw [List.mem_singleton] at hb
      subst hb
      exact ⟨device, AList.lookup_insert _⟩

theorem activeSet_emit (s : State σ) (e : Event) (h : ActiveSetOK s) :
    ActiveSetOK (s.emit e) := h

theorem flatWithinLookup_emit (s : State σ) (e : Event) (h : FlatWithinLookup s) :
    FlatWithinLookup (s.emit e) := h

theorem claimLoop_cases (T : Transport) (device : libusb_device)
    (descriptor : libusb_device_descriptor) :
    ∀ (remaining attempt : Nat) (s : State σ),
      (∃ k r, k < remaining ∧
        (k = 0 → T.claim s.claimCalls device descriptor = some r) ∧
        claimLoop T device descriptor remaining attempt s =
          (some (claimedPair (failedAttempts device descriptor k attempt s) device descriptor r),
           successfulAttempt (failedAttempts device descriptor k attempt s) device descriptor)) ∨
      claimLoop T device descriptor remaining attempt s =
        (none, failedAttempts device descriptor remaining attempt s) := by
  intro remaining
  induction remaining with
  | zero => intro attempt s; exact Or.inr rfl
  | succ n ih =>
    intro attempt s
    cases hc : T.claim s.claimCalls device descriptor with
    | some r =>
      exact Or.inl ⟨0, r, Nat.succ_pos n, fun _ => rfl,
        claimLoop_success T device descriptor n attempt s r hc⟩
    | none =>
      have hstep : claimLoop T device descriptor (n + 1) attempt s =
          claimLoop T device descriptor n (attempt + 1)
            (failedAttempt s device descriptor attempt) :=
        claimLoop_failed T device descriptor 1 n attempt s (fun i hi => by
          have : i = 0 := by omega
          subst this
          exact hc)
      rcases ih (attempt + 1) (failedAttempt s device descriptor attempt) with
        ⟨k, r, hk, -, heq⟩ | heq
      · refine Or.inl ⟨k + 1, r, Nat.succ_lt_succ hk, fun h0 => absurd h0 (Nat.succ_ne_zero k), ?_⟩
        rw [hstep, heq]
        rfl
      · refine Or.inr ?_
        rw [hstep, heq]
        rfl

theorem attach_activeSet (T : Transport) (s : State σ) (device : libusb_device)
    (descriptor : libusb_device_descriptor)
    (hreg : ∀ p ∈ s.handledProducts, p ∈ s.productHandlers) (h : ActiveSetOK s) :
    ∃ ok s1, handleProductAttach T s device descriptor = some (ok, s1) ∧
      ActiveSetOK s1 ∧ s1.productHandlers = s.productHandlers ∧
      s1.handledProducts = s.handledProducts ∧
      (FlatWithinLookup s → firstClaimFailsIfBound T s (Call.attach device descriptor) = true →
        FlatWithinLookup s1) := by
  by_cases hprod : descriptor.idProduct ∈ s.handledProducts
  · obtain ⟨handler, hl⟩ := Option.isSome_iff_exists.1
      (AList.lookup_isSome.2 (hreg _ hprod))
    have hstart : ActiveSetOK (attachStart s handler descriptor) := h
    rcases claimLoop_cases T device descriptor maxRetries 0 (attachStart s handler descriptor)
      with ⟨k, r, -, h0, heq⟩ | heq
    · obtain ⟨-, -, -, p, q, l, -⟩ :=
        failedAttempts_spec device descriptor k 0 (attachStart s handler descriptor)
      obtain ⟨a1, a2⟩ :=
        failedAttempts_activeSet device descriptor k 0 (attachStart s handler descriptor) hstart
      obtain ⟨b1, b2⟩ := register_activeSet
        (failedAttempts device descriptor k 0 (attachStart s handler descriptor))
        device descriptor r a1
      refine ⟨true, registerPair
        (successfulAttempt (failedAttempts device descriptor k 0
          (attachStart s handler descriptor)) device descriptor) device
        (claimedPair (failedAttempts device descriptor k 0
          (attachStart s handler descriptor)) device descriptor r), ?_, b1, ?_, ?_, ?_⟩
      · have := heq
        simp only [attachStart] at this
        simp only [handleProductAttach, hprod, if_true, hl, this, attachStart]
      · simp only [registerPair, successfulAttempt]
        exact p
      · simp only [registerPair, successfulAttempt]
        exact q
      · intro hf hadm
        refine b2 (a2 hf) ?_
        rcases Nat.eq_zero_or_pos k with hk | hk
        · subst hk
          have hclaim := h0 rfl
          have hclaim2 : T.claim s.claimCalls device descriptor = some r := hclaim
          simp only [firstClaimFailsIfBound, hprod, hclaim2, decide_True, Bool.not_true,
            Bool.or_false, Option.isNone_some, Option.isNone_iff_eq_none] at hadm
          exact hadm
        · exact l hk
    · obtain ⟨-, -, -, p, q, -, -⟩ :=
        failedAttempts_spec device descriptor maxRetries 0 (attachStart s handler descriptor)
      obtain ⟨a1, a2⟩ := failedAttempts_activeSet device descriptor maxRetries 0
        (attachStart s handler descriptor) hstart
      refine ⟨false, (failedAttempts device descriptor maxRetries 0
        (attachStart s handler descriptor)).emit (Event.log LogLine.givingUp), ?_, ?_, ?_, ?_, ?_⟩
      · have := heq
        simp only [attachStart] at this
        simp only [handleProductAttach, hprod, if_true, hl, this, attachStart]
      · exact activeSet_emit _ _ a1
      · simp only [State.emit]
        exact p
      · simp only [State.emit]
        exact q
      · exact fun hf _ => flatWithinLookup_emit _ _ (a2 hf)
  · exact ⟨false, s.emit (Event.log (LogLine.unknownProduct descriptor.idProduct)),
      by simp only [handleProductAttach, hprod, if_false], h, rfl, rfl, fun hf _ => hf⟩

theorem run_activeSet (T : Transport) (calls : List Call) :
    ∀ s : State σ, (∀ p ∈ s.handledProducts, p ∈ s.productHandlers) → ActiveSetOK s →
      ∃ s1, run T calls s = some s1 ∧ ActiveSetOK s1 ∧
        (FlatWithinLookup s → noClaimWhileBound T calls s = true → FlatWithinLookup s1) := by
  induction calls with
  | nil => intro s _ h; exact ⟨s, rfl, h, fun hf _ => hf⟩
  | cons call rest ih =>
    intro s hreg h
    cases call with
    | attach device descriptor =>
      obtain ⟨ok, s1, heq, a1, p, q, a2⟩ := attach_activeSet T s device descriptor hreg h
      have hstep : step T s (Call.attach device descriptor) = some s1 := by
        simp only [step, heq, Option.map_some']
      obtain ⟨s2, r1, r2, r3⟩ := ih s1 (by rw [p, q]; exact hreg) a1
      refine ⟨s2, by simp only [run, hstep, Option.some_bind, r1], r2, fun hf hadm => ?_⟩
      simp only [noClaimWhileBound, hstep, Bool.and_eq_true] at hadm
      exact r3 (a2 hf hadm.1) hadm.2
    | detach device descriptor =>
      obtain ⟨p, q, n, -⟩ := handleProductDetach_frame s device descriptor
      have hstep : step T s (Call.detach device descriptor) =
          some (handleProductDetach s device descriptor) := rfl
      have a1 : ActiveSetOK (handleProductDetach s device descriptor) :=
        ⟨detach_lookupWithinFlat s device descriptor h.1, fun b hb => by
          rw [n]; exact h.2 b (detach_flat_subset s device descriptor b hb)⟩
      obtain ⟨s2, r1, r2, r3⟩ := ih _ (by rw [p, q]; exact hreg) a1
      refine ⟨s2, by simp only [run, hstep, Option.some_bind, r1], r2, fun hf hadm => ?_⟩
      simp only [noClaimWhileBound, hstep, Bool.and_eq_true] at hadm
      exact r3 (detach_flatWithinLookup s device descriptor h.1 hf) hadm.2

/-- C9, as amended. Active-set consistency, starting from an empty active device
set with a handler registered for every handled product: after every finite
sequence of handleProductAttach and handleProductDetach calls (any identities,
descriptors and claim outcomes) the calls all return, every binding held by the
identity lookup occurs in the flat collection, no binding occurs in the flat
collection twice and no two identities map to the same binding; and when no
attach of an identity that is already bound succeeds at its first claim
attempt, the two views hold the same bindings, each exactly once in the flat
collection. -/
theorem C9_active_set_consistency (T : Transport) (s0 : State σ) (calls : List Call)
    (hflat : s0.deviceInterfaces = []) (hmap : s0.deviceInterfaceMap = ∅)
    (hreg : ∀ p ∈ s0.handledProducts, p ∈ s0.productHandlers) :
    ∃ s, run T calls s0 = some s ∧ LookupWithinFlat s ∧
      (noClaimWhileBound T calls s0 = true → ViewsAgree s) := by
  have h0 : ActiveSetOK s0 := by
    refine ⟨⟨?_, ?_, ?_⟩, ?_⟩
    · rw [hflat]; exact List.nodup_nil
    · intro d b hd
      rw [hmap, AList.lookup_empty] at hd
      cases hd
    · intro d1 d2 b hd
      rw [hmap, AList.lookup_empty] at hd
      cases hd
    · intro b hb
      rw [hflat] at hb
      cases hb
  have hf0 : FlatWithinLookup s0 := by
    intro b hb
    rw [hflat] at hb
    cases hb
  obtain ⟨s, r1, r2, r3⟩ := run_activeSet T calls s0 hreg h0
  exact ⟨s, r1, r2.1, fun hadm => viewsAgree_of s r2.1 (r3 hf0 hadm)⟩

theorem C9_active_set_consistency_witness :
    vendorStart.deviceInterfaces = [] ∧ vendorStart.deviceInterfaceMap = ∅ ∧
    noClaimWhileBound (alternatingTransport)
      [Call.attach 7 descriptorA, Call.attach 7 descriptorA, Call.detach 7 descriptorA,
       Call.attach 8 descriptorA] vendorStart = true ∧
    ∃ s, run (alternatingTransport)
        [Call.attach 7 descriptorA, Call.attach 7 descriptorA, Call.detach 7 descriptorA,
         Call.attach 8 descriptorA] vendorStart = some s ∧
      ViewsAgree s :=
  ⟨rfl, rfl, by decide,
   (C9_active_set_consistency (alternatingTransport) vendorStart
      [Call.attach 7 descriptorA, Call.attach 7 descriptorA, Call.detach 7 descriptorA,
       Call.attach 8 descriptorA] rfl rfl (by decide)).imp
     fun _ h => ⟨h.1, h.2.2 (by decide)⟩⟩

/-- C9, the claim as stated fails: from the empty active set, with a transport
whose every claim succeeds, attaching device 7 twice in a row leaves the first
binding in the flat collection, which then holds two bindings, while the lookup
holds only the second: the first binding is in the flat collection and is the
value of no entry of the lookup. -/
theorem C9_counterexample :
    vendorStart.deviceInterfaces = [] ∧ vendorStart.deviceInterfaceMap = ∅ ∧
    ∃ s, run (scriptedTransport 0) [Call.attach 7 descriptorA, Call.attach 7 descriptorA]
        vendorStart = some s ∧
      s.deviceInterfaces = [firstPair, secondPair] ∧
      s.deviceInterfaceMap.entries = [⟨7, secondPair⟩] ∧
      ¬ ViewsAgree s := by
  refine ⟨rfl, rfl, ?_⟩
  have h1 : (run (scriptedTransport 0) [Call.attach 7 descriptorA, Call.attach 7 descriptorA]
      vendorStart).map (fun s => s.deviceInterfaces) = some [firstPair, secondPair] := by
    decide
  have h2 : (run (scriptedTransport 0) [Call.attach 7 descriptorA, Call.attach 7 descriptorA]
      vendorStart).map (fun s => s.deviceInterfaceMap.entries) = some [⟨7, secondPair⟩] := by
    decide
  cases hR : run (scriptedTransport 0) [Call.attach 7 descriptorA, Call.attach 7 descriptorA]
      vendorStart with
  | none => rw [hR] at h1; cases h1
  | some s =>
    rw [hR] at h1 h2
    simp only [Option.map_some', Option.some.injEq] at h1 h2
    refine ⟨s, rfl, h1, h2, fun hv => ?_⟩
    obtain ⟨d, hd⟩ := (hv firstPair).1.2 (by rw [h1]; exact List.mem_cons_self _ _)
    have hmem : (⟨d, firstPair⟩ : Sigma fun _ : libusb_device => device_interface_pair) ∈
        s.deviceInterfaceMap.entries := AList.mem_lookup_iff.1 hd
    rw [h2, List.mem_singleton] at hmem
    have : firstPair = secondPair := by
      injection hmem with _ hp
    exact absurd this (by decide)

/-! ## Configuration -/

theorem lookupKey_filter_ne (key other : String) (h : other ≠ key)
    (members : List (String × Json)) :
    Json.lookupKey other (members.filter (fun kv => !decide (kv.1 = key))) =
      Json.lookupKey other members := by
  induction members with
  | nil => rfl
  | cons kv rest ih =>
    obtain ⟨k, v⟩ := kv
    by_cases hk : k = key
    · have hko : ¬ k = other := fun e => h (e ▸ hk)
      have hf : List.filter (fun kv => !decide (kv.1 = key)) ((k, v) :: rest) =
          List.filter (fun kv => !decide (kv.1 = key)) rest := by
        simp [List.filter_cons, hk]
      rw [hf, ih]
      simp only [Json.lookupKey, hko, if_false]
    · have hf : List.filter (fun kv => !decide (kv.1 = key)) ((k, v) :: rest) =
          (k, v) :: List.filter (fun kv => !decide (kv.1 = key)) rest := by
        simp [List.filter_cons, hk]
      rw [hf]
      by_cases hko : k = other
      · simp only [Json.lookupKey, hko, if_true]
      · simp only [Json.lookupKey, hko, if_false, ih]

theorem Json.get_assign (j j1 : Json) (key : String) (v : Json) (ht : j.isTree = true)
    (h : j.assign key v = some j1) :
    j1.isTree = true ∧ ∀ other, j1.get other = if other = key then some v else j.get other := by
  cases j with
  | null =>
    simp only [Json.assign, Option.some.injEq] at h
    subst h
    refine ⟨rfl, fun other => ?_⟩
    by_cases ho : other = key
    · simp [Json.get, Json.lookupKey, ho]
    · have : ¬ key = other := fun e => ho e.symm
      simp [Json.get, Json.lookupKey, ho, this]
  | object members =>
    simp only [Json.assign, Option.some.injEq] at h
    subst h
    refine ⟨rfl, fun other => ?_⟩
    by_cases ho : other = key
    · simp [Json.get, Json.lookupKey, ho]
    · have : ¬ key = other := fun e => ho e.symm
      simp [Json.get, Json.lookupKey, ho, this, lookupKey_filter_ne key other ho]
  | boolean b => cases ht
  | number n => cases ht
  | string s => cases ht
  | array items => cases ht

theorem Json.assign_isSome (j : Json) (key : String) (v : Json) (ht : j.isTree = true) :
    ∃ j1, j.assign key v = some j1 := by
  cases j with
  | null => exact ⟨_, rfl⟩
  | object members => exact ⟨_, rfl⟩
  | boolean b => cases ht
  | number n => cases ht
  | string s => cases ht
  | array items => cases ht

theorem Json.orEmpty_not_null (o : Option Json) : (Json.orEmpty o).isNull = false := by
  cases o with
  | none => rfl
  | some v =>
    simp only [Json.orEmpty]
    split
    · rfl
    · rename_i hv
      simpa using hv

theorem Json.orEmpty_orEmpty (o : Option Json) :
    Json.orEmpty (some (Json.orEmpty o)) = Json.orEmpty o := by
  have := Json.orEmpty_not_null o
  generalize Json.orEmpty o = w at this
  simp only [Json.orEmpty, this]
  rfl

theorem setConfigStep_spec (product : Int) (handler : tablet_handler σ) (config : Json)
    (hs : Int → σ) (ht : config.isTree = true) :
    ∃ c1, setConfigStep product handler (config, hs) =
        some (c1, Function.update hs product
          (handler.setConfig (hs product) (Json.orEmpty (config.get (toString product))))) ∧
      c1.isTree = true ∧
      ∀ key, c1.get key =
        if key = toString product then some (Json.orEmpty (config.get (toString product)))
        else config.get key := by
  have assigned : ∀ c1, config.assign (toString product) Json.emptyObject = some c1 →
      c1.subscript (toString product) = some Json.emptyObject := by
    intro c1 h1
    cases config with
    | null =>
      simp only [Json.assign, Option.some.injEq] at h1
      subst h1
      simp [Json.subscript, Json.lookupKey]
    | object members =>
      simp only [Json.assign, Option.some.injEq] at h1
      subst h1
      simp [Json.subscript, Json.lookupKey]
    | boolean b => cases ht
    | number n => cases ht
    | string s => cases ht
    | array items => cases ht
  obtain ⟨c1, hc1⟩ := Json.assign_isSome config (toString product) Json.emptyObject ht
  obtain ⟨t1, g1⟩ := Json.get_assign config c1 (toString product) Json.emptyObject ht hc1
  cases hget : config.get (toString product) with
  | none =>
    have hcontains : config.contains (toString product) = false := by
      cases config with
      | object members => simpa [Json.contains, Json.get] using hget
      | null => rfl
      | boolean b => rfl
      | number n => rfl
      | string s => rfl
      | array items => rfl
    refine ⟨c1, ?_, t1, fun key => ?_⟩
    · simp [setConfigStep, hcontains, hc1, assigned c1 hc1, Json.orEmpty]
    · rw [g1 key]; rfl
  | some v =>
    obtain ⟨members, rfl⟩ : ∃ members, config = Json.object members := by
      cases config with
      | object members => exact ⟨members, rfl⟩
      | null => cases hget
      | boolean b => cases hget
      | number n => cases hget
      | string s => cases hget
      | array items => cases hget
    have hl : Json.lookupKey (toString product) members = some v := hget
    have hcontains : (Json.object members).contains (toString product) = true := by
      simp [Json.contains, hl]
    have hsub : (Json.object members).subscript (toString product) = some v := by
      simp [Json.subscript, hl]
    cases hv : v.isNull with
    | true =>
      refine ⟨c1, ?_, t1, fun key => ?_⟩
      · simp [setConfigStep, hcontains, hsub, hv, hc1, assigned c1 hc1, Json.orEmpty]
      · rw [g1 key]
        simp [Json.orEmpty, hv]
    | false =>
      refine ⟨Json.object members, ?_, rfl, fun key => ?_⟩
      · simp [setConfigStep, hcontains, hsub, hv, Json.orEmpty]
      · by_cases hk : key = toString product
        · subst hk
          simp [hget, Json.orEmpty, hv]
        · simp [hk]

theorem orEmpty_after_step (c c1 : Json) (k : String)
    (hg : ∀ key, c1.get key = if key = k then some (Json.orEmpty (c.get k)) else c.get key) :
    ∀ key, Json.orEmpty (c1.get key) = Json.orEmpty (c.get key) := by
  intro key
  rw [hg key]
  by_cases hk : key = k
  · subst hk
    simp only [if_true]
    exact Json.orEmpty_orEmpty _
  · simp only [hk, if_false]

theorem setConfigLoop_spec (l : List (Sigma fun _ : Int => tablet_handler σ)) :
    ∀ (c : Json) (hs : Int → σ), c.isTree = true →
      ∃ c1 hs1, setConfigLoop l (c, hs) = some (c1, hs1) ∧ c1.isTree = true ∧
        (∀ key, c1.get key =
          if key ∈ l.map (fun e => toString e.1) then some (Json.orEmpty (c.get key))
          else c.get key) ∧
        (∀ p, p ∉ l.keys → hs1 p = hs p) ∧
        (l.keys.Nodup → ∀ e ∈ l,
          hs1 e.1 = e.2.setConfig (hs e.1) (Json.orEmpty (c.get (toString e.1)))) := by
  induction l with
  | nil =>
    intro c hs ht
    exact ⟨c, hs, rfl, ht, fun key => by simp, fun p _ => rfl, fun _ e he => by cases he⟩
  | cons e rest ih =>
    intro c hs ht
    obtain ⟨c0, hstep, t0, g0⟩ := setConfigStep_spec e.1 e.2 c hs ht
    obtain ⟨c1, hs1, hloop, t1, g1, f1, n1⟩ := ih c0
      (Function.update hs e.1 (e.2.setConfig (hs e.1) (Json.orEmpty (c.get (toString e.1))))) t0
    have hor := orEmpty_after_step c c0 (toString e.1) g0
    refine ⟨c1, hs1, ?_, t1, ?_, ?_, ?_⟩
    · simp only [setConfigLoop, hstep, Option.some_bind, hloop]
    · intro key
      rw [g1 key, hor key, g0 key]
      by_cases hk : key = toString e.1
      · subst hk
        simp only [List.map_cons, List.mem_cons, true_or, if_true]
        split
        · rfl
        · rfl
      · simp only [List.map_cons, List.mem_cons, hk, false_or, if_false]
    · intro p hp
      have hp1 : p ≠ e.1 := fun h => hp (by simp [List.keys, h])
      have hp2 : p ∉ rest.keys := fun h => hp (by
        simp only [List.keys, List.map_cons, List.mem_cons]
        exact Or.inr h)
      rw [f1 p hp2, Function.update_noteq hp1]
    · intro hnd x hx
      have hnd2 : e.1 ∉ rest.keys ∧ rest.keys.Nodup := by
        simpa [List.keys] using hnd
      rcases List.mem_cons.1 hx with hx | hx
      · subst hx
        rw [f1 _ hnd2.1, Function.update_same]
      · have hxk : x.1 ∈ rest.keys := List.mem_map.2 ⟨x, hx, rfl⟩
        have hne : x.1 ≠ e.1 := fun h => hnd2.1 (h ▸ hxk)
        rw [n1 hnd2.2 x hx, Function.update_noteq hne, hor]

theorem getConfigLoop_spec (hs : Int → σ) (G : String → Json)
    (l : List (Sigma fun _ : Int => tablet_handler σ))
    (hG : ∀ e ∈ l, e.2.getConfig (hs e.1) = G (toString e.1)) :
    ∀ j : Json, j.isTree = true →
      ∃ j1, getConfigLoop hs l j = some j1 ∧ j1.isTree = true ∧
        ∀ key, j1.get key =
          if key ∈ l.map (fun e => toString e.1) then some (G key) else j.get key := by
  induction l with
  | nil => intro j ht; exact ⟨j, rfl, ht, fun key => by simp⟩
  | cons e rest ih =>
    intro j ht
    obtain ⟨j0, h0⟩ := Json.assign_isSome j (toString e.1) (e.2.getConfig (hs e.1)) ht
    obtain ⟨t0, g0⟩ := Json.get_assign j j0 _ _ ht h0
    obtain ⟨j1, h1, t1, g1⟩ := ih (fun x hx => hG x (List.mem_cons_of_mem _ hx)) j0 t0
    refine ⟨j1, ?_, t1, fun key => ?_⟩
    · simp only [getConfigLoop, h0, Option.some_bind, h1]
    · rw [g1 key, g0 key, hG e (List.mem_cons_self _ _)]
      by_cases hk : key = toString e.1
      · subst hk
        simp only [List.map_cons, List.mem_cons, true_or, if_true]
        split
        · rfl
        · rfl
      · simp only [List.map_cons, List.mem_cons, hk, false_or, if_false]

theorem mem_registry_strings (registry : AList (fun _ : Int => tablet_handler σ))
    (key : String) :
    key ∈ registry.entries.map (fun e => toString e.1) ↔
      ∃ p, p ∈ registry ∧ key = toString p := by
  constructor
  · intro h
    obtain ⟨e, he, hk⟩ := List.mem_map.1 h
    exact ⟨e.1, AList.mem_keys.2 (List.mem_map.2 ⟨e, he, rfl⟩), hk.symm⟩
  · rintro ⟨p, hp, rfl⟩
    obtain ⟨e, he, hk⟩ := List.mem_map.1 (AList.mem_keys.1 hp)
    exact List.mem_map.2 ⟨e, he, by rw [hk]⟩

/-- C7. Config round-trip.  For every configuration tree `t` (an object, or the
null tree) and every registry whose handlers return from getConfig the value
last given to their setConfig, setConfig t followed by getConfig returns a tree
in which every registered product identifier has, under its decimal string key,
a non-null value: the value `t` had there when that was present and not null,
the empty object otherwise; that value is what the stored configuration holds
under the key and what the handler under the product identifier was given by
setConfig; and every key that is not the string of a registered product
identifier has the value it had in `t`. -/
theorem C7_config_round_trip (s : State σ) (t : Json) (ht : t.isTree = true)
    (hlaw : ∀ p handler, s.productHandlers.lookup p = some handler →
      ∀ st j, handler.getConfig (handler.setConfig st j) = j) :
    ∃ s1 tree s2, setConfig s t = some s1 ∧ getConfig s1 = some (tree, s2) ∧
      (∀ p handler, s.productHandlers.lookup p = some handler →
        tree.get (toString p) = some (Json.orEmpty (t.get (toString p))) ∧
        (Json.orEmpty (t.get (toString p))).isNull = false ∧
        (∀ v, t.get (toString p) = some v → v.isNull = false →
          tree.get (toString p) = some v) ∧
        (t.get (toString p) = none ∨ t.get (toString p) = some Json.null →
          tree.get (toString p) = some Json.emptyObject) ∧
        s1.jsonConfig.get (toString p) = some (Json.orEmpty (t.get (toString p))) ∧
        s1.handlerState p =
          handler.setConfig (s.handlerState p) (Json.orEmpty (t.get (toString p)))) ∧
      (∀ key, (∀ p, p ∈ s.productHandlers → key ≠ toString p) → tree.get key = t.get key) := by
  obtain ⟨c1, hs1, hloop, t1, g1, -, n1⟩ :=
    setConfigLoop_spec s.productHandlers.entries t s.handlerState ht
  have hnd : s.productHandlers.entries.keys.Nodup := s.productHandlers.keys_nodup
  have hG : ∀ e ∈ s.productHandlers.entries,
      e.2.getConfig (hs1 e.1) = Json.orEmpty (t.get (toString e.1)) := by
    intro e he
    rw [n1 hnd e he]
    exact hlaw e.1 e.2 (AList.mem_lookup_iff.2 he) _ _
  obtain ⟨j1, hget, -, g2⟩ := getConfigLoop_spec hs1 (fun key => Json.orEmpty (t.get key))
    s.productHandlers.entries hG c1 t1
  have hsame : ∀ key, j1.get key = c1.get key := by
    intro key
    rw [g2 key, g1 key]
    split <;> rfl
  refine ⟨{ s with handlerState := hs1, jsonConfig := c1 }, j1,
    { s with handlerState := hs1, jsonConfig := j1 }, ?_, ?_, ?_, ?_⟩
  · simp only [setConfig, hloop, Option.map_some']
  · simp only [getConfig, hget, Option.map_some']
  · intro p handler hl
    have hmem : (⟨p, handler⟩ : Sigma fun _ : Int => tablet_handler σ) ∈
        s.productHandlers.entries := AList.mem_lookup_iff.1 hl
    have hstr : toString p ∈ s.productHandlers.entries.map (fun e => toString e.1) :=
      List.mem_map.2 ⟨⟨p, handler⟩, hmem, rfl⟩
    have hc : c1.get (toString p) = some (Json.orEmpty (t.get (toString p))) := by
      rw [g1, if_pos hstr]
    have htree : j1.get (toString p) = some (Json.orEmpty (t.get (toString p))) := by
      rw [hsame, hc]
    refine ⟨htree, Json.orEmpty_not_null _, ?_, ?_, hc, n1 hnd ⟨p, handler⟩ hmem⟩
    · intro v hv hnull
      rw [htree, hv]
      simp [Json.orEmpty, hnull]
    · intro h
      rw [htree]
      rcases h with h | h <;> rw [h] <;> rfl
  · intro key hkey
    have hnot : key ∉ s.productHandlers.entries.map (fun e => toString e.1) := by
      intro h
      obtain ⟨p, hp, hk⟩ := (mem_registry_strings s.productHandlers key).1 h
      exact hkey p hp hk
    rw [hsame, g1, if_neg hnot]

theorem C7_config_round_trip_witness :
    configTree.isTree = true ∧
    (∀ p handler, configState.productHandlers.lookup p = some handler →
      ∀ st j, handler.getConfig (handler.setConfig st j) = j) ∧
    ∃ s1 tree s2, setConfig configState configTree = some s1 ∧
      getConfig s1 = some (tree, s2) ∧
      tree.get "2331" = some (Json.object [("pressure", Json.number 5)]) ∧
      tree.get "2315" = some Json.emptyObject ∧
      tree.get "vendor" = some (Json.string "XP-Pen") := by
  have hlaw : ∀ p handler, configState.productHandlers.lookup p = some handler →
      ∀ st j, handler.getConfig (handler.setConfig st j) = j := by
    intro p handler hl st j
    have hmem : (⟨p, handler⟩ : Sigma fun _ : Int => tablet_handler Json) ∈
        configState.productHandlers.entries := AList.mem_lookup_iff.1 hl
    have hentries : configState.productHandlers.entries =
        [⟨productA, storingHandler⟩, ⟨productB, storingHandler⟩] := rfl
    rw [hentries] at hmem
    rcases List.mem_cons.1 hmem with h | h
    · injection h with _ h2
      rw [h2]
      rfl
    · rw [List.mem_singleton] at h
      injection h with _ h2
      rw [h2]
      rfl
  refine ⟨rfl, hlaw, ?_⟩
  obtain ⟨s1, tree, s2, h1, h2, h3, h4⟩ := C7_config_round_trip configState configTree rfl hlaw
  refine ⟨s1, tree, s2, h1, h2, ?_, ?_, ?_⟩
  · exact (h3 productA storingHandler rfl).2.2.1 _ rfl rfl
  · exact (h3 productB storingHandler rfl).2.2.2.1 (Or.inr rfl)
  · rw [h4 "vendor"]
    · rfl
    · intro p hp
      have hk : p ∈ configState.productHandlers.keys := AList.mem_keys.1 hp
      have hkeys : configState.productHandlers.keys = [productA, productB] := rfl
      rw [hkeys] at hk
      rcases List.mem_cons.1 hk with h | h
      · subst h; decide
      · rw [List.mem_singleton] at h
        subst h; decide

end XpPen
